import Mathlib

/-! d-comms-gui: session registry and sync loop

A shallow embedding of `src/main.js` (the Electron main process: chat registry,
change detector, peer list, sync timer) and of the parts of
`src/renderer/renderer.js` that feed it (the add-chat dialog, the send path).

Conventions of the embedding

* A JavaScript string is the list of its UTF-16 code units (`JsString`), so that
  `length` and `slice` mean what they mean in the source.
* A JavaScript `Map` is an insertion-ordered association list, a `Set` an
  insertion-ordered list; `mapSet` keeps the position of an existing key, as
  `Map.prototype.set` does.
* The native addon and the file system are not part of the sources.  Every
  handler takes an `Env`, an oracle that says how each outside call answers
  (a value or a thrown error) during that handler run.
* Every handler returns the new state, its reply and the trace of outside calls
  it made, in order.
-/

namespace DComms

/-! ## JavaScript values -/

/-- A JavaScript string as the list of its UTF-16 code units. -/
abbrev JsString := List Nat

/-- Code units of a literal whose characters are all in the basic plane. -/
def js (s : String) : JsString := s.toList.map Char.toNat

/-- Lookup `Map.prototype.get`: `none` stands for `undefined`. -/
def mapGet {κ ν : Type} [DecidableEq κ] : List (κ × ν) → κ → Option ν
  | [], _ => none
  | (k', v) :: m, k => if k' = k then some v else mapGet m k

/-- Membership test `Map.prototype.has`. -/
def mapHas {κ ν : Type} [DecidableEq κ] (m : List (κ × ν)) (k : κ) : Bool :=
  (mapGet m k).isSome

/-- Update `Map.prototype.set`: an existing key keeps its place, a new key goes last. -/
def mapSet {κ ν : Type} [DecidableEq κ] : List (κ × ν) → κ → ν → List (κ × ν)
  | [], k, v => [(k, v)]
  | (k', v') :: m, k, v => if k' = k then (k, v) :: m else (k', v') :: mapSet m k v

/-- Removal `Map.prototype.delete`. -/
def mapDelete {κ ν : Type} [DecidableEq κ] (m : List (κ × ν)) (k : κ) : List (κ × ν) :=
  m.filter (fun e => decide (e.1 ≠ k))

/-- Keys in insertion order, `Map.prototype.keys`. -/
def mapKeys {κ ν : Type} (m : List (κ × ν)) : List κ := m.map Prod.fst

/-- Membership test `Set.prototype.has`. -/
def setHas {κ : Type} [DecidableEq κ] (s : List κ) (k : κ) : Bool := decide (k ∈ s)

/-- Insertion `Set.prototype.add`: a value already present is not added again. -/
def setAdd {κ : Type} [DecidableEq κ] (s : List κ) (k : κ) : List κ :=
  if k ∈ s then s else s ++ [k]

/-- Removal `Set.prototype.delete`. -/
def setDelete {κ : Type} [DecidableEq κ] (s : List κ) (k : κ) : List κ :=
  s.filter (fun x => decide (x ≠ k))

/-- Construction `new Set(iterable)`: first occurrences, in order. -/
def setOf {κ : Type} [DecidableEq κ] (xs : List κ) : List κ :=
  xs.foldl setAdd []

/-! ## Data model of `main.js` -/

/-- Value stored in `loadedChats`: `{ chatId, userKey, secretId, isInitiator }`. -/
structure ChatEntry where
  chatId : Nat
  userKey : JsString
  secretId : JsString
  isInitiator : Bool
deriving DecidableEq, Repr

/-- One element of the engine's message list. -/
structure Msg where
  text : JsString
  isMe : Bool
  entityId : JsString
deriving DecidableEq, Repr

/-- Result of `addon.getChatInfo`; `state = none` is a missing `state` field. -/
structure ChatInfo where
  state : Option Nat
  isInitiator : Bool
  userKey : JsString
  secretId : JsString
deriving DecidableEq, Repr

/-- Result object of `addon.sendMessage`: `{ success, error? }`. -/
structure SendResult where
  success : Bool
  error : Option String
deriving DecidableEq, Repr

/-- One record of the list returned by `getLivePeers`. -/
structure PeerRecord where
  host : JsString
  port : Int
  live : Bool
  lastSeen : Option Nat
deriving DecidableEq, Repr

/-- Module-level state of `main.js`. `addon = false` is `addon === null`;
`windowOpen` is `mainWindow && !mainWindow.isDestroyed()`. -/
structure State where
  addon : Bool
  windowOpen : Bool
  syncPort : Int
  loadedChats : List (JsString × ChatEntry)
  messageCounts : List (Nat × Nat)
  savedChatNames : List JsString
  syncInProgress : Bool
  peerLastSeen : List (JsString × Nat)
deriving DecidableEq, Repr

/-- How the addon and the file system answer during one handler run. An
`Except.error msg` is a thrown error with `err.message = msg`. `registryExists`
answers `fs.existsSync(regPath)` and `readRegistry` answers
`fs.readFileSync(regPath, 'utf8')` for the peer registry `registry.db`. -/
structure Env where
  loadChat : JsString → Except String ChatEntry
  createChat : JsString → Except String ChatEntry
  joinChat : JsString → JsString → JsString → Except String ChatEntry
  saveChat : Nat → JsString → Except String Unit
  addDHTChat : JsString → Except String Unit
  getMessages : Nat → Except String (List Msg)
  getChatInfo : Nat → Except String (Option ChatInfo)
  sendMessage : Nat → JsString → Except String SendResult
  destroyChat : Nat → Except String Unit
  fileExists : JsString → Bool
  unlink : JsString → Except String Unit
  registryExists : Bool
  readRegistry : Except String JsString

/-- Outside calls the main process can make: addon functions, `fs.unlinkSync`,
`fs.existsSync` and `fs.readFileSync` on the peer registry, and `net.connect`. -/
inductive Call where
  | loadChat (name : JsString)
  | createChat (name : JsString)
  | joinChat (name userKey secretId : JsString)
  | saveChat (chatId : Nat) (name : JsString)
  | addDHTChat (secretId : JsString)
  | getMessages (chatId : Nat)
  | getChatInfo (chatId : Nat)
  | sendMessage (chatId : Nat) (text : JsString)
  | destroyChat (chatId : Nat)
  | unlink (name : JsString)
  | syncWithPeers
  | registryExists
  | readRegistry
  | connect (host : JsString) (port : Int)
deriving DecidableEq, Repr

/-- Messages pushed to the renderer over `webContents.send`. -/
inductive Push where
  | syncStart
  | syncDone (added : Int)
  | messagesUpdate (chatId : Nat) (name : JsString) (messages : List Msg) (state : Option Nat)
  | peersUpdate (count : Nat) (peers : List PeerRecord)
deriving DecidableEq, Repr

/-- What the main process does that is visible from outside, in the order it
happens: a message sent to the renderer, or a call to the addon or the file system. -/
inductive Obs where
  | push (p : Push)
  | call (c : Call)
deriving DecidableEq, Repr

/-- Function `pushToRenderer`: the message goes out only while the window is alive. -/
def pushToRenderer (st : State) (p : Push) : List Obs :=
  if st.windowOpen then [.push p] else []

/-! ## Change detector (`checkNewMessages`) -/

/-- Loop state of one `checkNewMessages` pass: the snapshot map and what the
pass has done so far. -/
structure Pass where
  counts : List (Nat × Nat)
  log : List Obs
deriving DecidableEq, Repr

/-- Body of the `for` loop of `checkNewMessages` for one `[name, info]`, with
its `try { ... } catch (_) {}`. -/
def checkOne (env : Env) (st : State) (acc : Pass) (e : JsString × ChatEntry) : Pass :=
  match env.getMessages e.2.chatId with
  | .error _ => { acc with log := acc.log ++ [.call (.getMessages e.2.chatId)] }
  | .ok msgs =>
    let prev := (mapGet acc.counts e.2.chatId).getD 0
    if msgs.length ≠ prev then
      let counts := mapSet acc.counts e.2.chatId msgs.length
      match env.getChatInfo e.2.chatId with
      | .error _ =>
        { counts := counts,
          log := acc.log ++ [.call (.getMessages e.2.chatId), .call (.getChatInfo e.2.chatId)] }
      | .ok chatInfo =>
        let code : Option Nat := match chatInfo with
          | some ci => ci.state
          | none => some 0
        { counts := counts,
          log := acc.log ++ [.call (.getMessages e.2.chatId), .call (.getChatInfo e.2.chatId)]
            ++ pushToRenderer st (.messagesUpdate e.2.chatId e.1 msgs code) }
    else { acc with log := acc.log ++ [.call (.getMessages e.2.chatId)] }

/-- Function `checkNewMessages`: one pass over `loadedChats`; the new state and
what the pass did. -/
def checkNewMessages (env : Env) (st : State) : State × List Obs :=
  if st.addon then
    let r := st.loadedChats.foldl (checkOne env st) ⟨st.messageCounts, []⟩
    ({ st with messageCounts := r.counts }, r.log)
  else (st, [])

/-- Result of `getLivePeers`. -/
structure PeersResult where
  count : Nat
  peers : List PeerRecord
deriving DecidableEq, Repr

/-! ## IPC handlers of `main.js`

Each handler runs its guards, awaits at most one engine promise, and then
performs all its writes in one synchronous block; a handler run is therefore
one transition of `State`. -/

/-- Value a handler returns to the renderer. -/
inductive Reply where
  | chat (name : Option JsString) (info : ChatEntry)
  | done
  | fail (error : String)
  | sent (r : SendResult)
deriving DecidableEq, Repr

/-- Field `success` of a reply object. -/
def Reply.success : Reply → Bool
  | .chat _ _ => true
  | .done => true
  | .fail _ => false
  | .sent r => r.success

/-- New state, reply and trace of outside calls of one handler run. -/
structure Out where
  st : State
  reply : Reply
  calls : List Call
deriving DecidableEq, Repr

/-- One element of the array returned by `chat:list`; `none` is `null`. -/
structure ListEntry where
  name : JsString
  loaded : Bool
  chatId : Option Nat
  userKey : Option JsString
  secretId : Option JsString
  isInitiator : Option Bool
deriving DecidableEq, Repr

/-- Handler `chat:list`. -/
def chatList (st : State) : List ListEntry :=
  (setOf (st.savedChatNames ++ mapKeys st.loadedChats)).map fun name =>
    let info := mapGet st.loadedChats name
    { name := name
      loaded := info.isSome
      chatId := info.map (fun i => i.chatId)
      userKey := info.map (fun i => i.userKey)
      secretId := info.map (fun i => i.secretId)
      isInitiator := info.map (fun i => i.isInitiator) }

/-- Handler `chat:open`. The cached branch replies `{ success: true, ...info }`
(no `name` field), the load branch `{ success: true, name, ...info }`. -/
def chatOpen (env : Env) (st : State) (name : JsString) : Out :=
  match mapGet st.loadedChats name with
  | some info => ⟨st, .chat none info, []⟩
  | none =>
    if !setHas st.savedChatNames name then ⟨st, .fail "Chat not found on disk", []⟩
    else if !st.addon then ⟨st, .fail "Addon not loaded", []⟩
    else
      match env.loadChat name with
      | .error e => ⟨st, .fail e, [.loadChat name]⟩
      | .ok result =>
        let info : ChatEntry :=
          { chatId := result.chatId, userKey := result.userKey,
            secretId := result.secretId, isInitiator := result.isInitiator }
        let st1 : State :=
          { st with
            loadedChats := mapSet st.loadedChats name info
            messageCounts := mapSet st.messageCounts result.chatId 0 }
        match env.addDHTChat result.secretId with
        | .error e => ⟨st1, .fail e, [.loadChat name, .addDHTChat result.secretId]⟩
        | .ok _ => ⟨st1, .chat (some name) info, [.loadChat name, .addDHTChat result.secretId]⟩

/-- Shared tail of `chat:create` and `chat:join` once the engine has returned
`result`: record the chat, then `saveChat` and `addDHTChat`. -/
def recordChat (env : Env) (st : State) (name : JsString) (result : ChatEntry)
    (isInitiator : Bool) (first : Call) : Out :=
  let info : ChatEntry :=
    { chatId := result.chatId, userKey := result.userKey,
      secretId := result.secretId, isInitiator := isInitiator }
  let st1 : State :=
    { st with
      loadedChats := mapSet st.loadedChats name info
      savedChatNames := setAdd st.savedChatNames name
      messageCounts := mapSet st.messageCounts result.chatId 0 }
  match env.saveChat result.chatId name with
  | .error e => ⟨st1, .fail e, [first, .saveChat result.chatId name]⟩
  | .ok _ =>
    match env.addDHTChat result.secretId with
    | .error e =>
      ⟨st1, .fail e, [first, .saveChat result.chatId name, .addDHTChat result.secretId]⟩
    | .ok _ =>
      ⟨st1, .chat (some name) info,
        [first, .saveChat result.chatId name, .addDHTChat result.secretId]⟩

/-- Handler `chat:create`. -/
def chatCreate (env : Env) (st : State) (name : JsString) : Out :=
  if !st.addon then ⟨st, .fail "Addon not loaded", []⟩
  else
    match env.createChat name with
    | .error e => ⟨st, .fail e, [.createChat name]⟩
    | .ok result => recordChat env st name result true (.createChat name)

/-- Handler `chat:join`. -/
def chatJoin (env : Env) (st : State) (name userKey secretId : JsString) : Out :=
  if !st.addon then ⟨st, .fail "Addon not loaded", []⟩
  else
    match env.joinChat name userKey secretId with
    | .error e => ⟨st, .fail e, [.joinChat name userKey secretId]⟩
    | .ok result => recordChat env st name result false (.joinChat name userKey secretId)

/-- Handler `chat:send`. -/
def chatSend (env : Env) (st : State) (chatId : Nat) (text : JsString) : Out :=
  if !st.addon then ⟨st, .fail "Addon not loaded", []⟩
  else
    match env.sendMessage chatId text with
    | .ok r => ⟨st, .sent r, [.sendMessage chatId text]⟩
    | .error e => ⟨st, .fail e, [.sendMessage chatId text]⟩

/-- Statement `messageCounts.delete(chatId)` of `chat:delete`, where `chatId`
may be `null`. -/
def deleteCount (m : List (Nat × Nat)) : Option Nat → List (Nat × Nat)
  | some c => mapDelete m c
  | none => m

/-- Handler `chat:delete`; `chatId = none` is a `null` argument. -/
def chatDelete (env : Env) (st : State) (name : JsString) (chatId : Option Nat) : Out :=
  let destroy : Except String (List Call) :=
    match st.addon, chatId with
    | true, some c => (env.destroyChat c).map (fun _ => [Call.destroyChat c])
    | _, _ => .ok []
  match destroy with
  | .error e =>
    match chatId with
    | some c => ⟨st, .fail e, [.destroyChat c]⟩
    | none => ⟨st, .fail e, []⟩
  | .ok calls =>
    let st1 : State :=
      { st with
        loadedChats := mapDelete st.loadedChats name
        messageCounts := deleteCount st.messageCounts chatId
        savedChatNames := setDelete st.savedChatNames name }
    if env.fileExists name then
      match env.unlink name with
      | .error e => ⟨st1, .fail e, calls ++ [.unlink name]⟩
      | .ok _ => ⟨st1, .done, calls ++ [.unlink name]⟩
    else ⟨st1, .done, calls⟩

/-- The four registry operations of the renderer-facing API. -/
inductive Op where
  | openChat (name : JsString)
  | createChat (name : JsString)
  | joinChat (name userKey secretId : JsString)
  | deleteChat (name : JsString) (chatId : Option Nat)

/-- Run one registry operation against the environment of that call. -/
def applyOp (st : State) (c : Env × Op) : State :=
  match c.2 with
  | .openChat name => (chatOpen c.1 st name).st
  | .createChat name => (chatCreate c.1 st name).st
  | .joinChat name userKey secretId => (chatJoin c.1 st name userKey secretId).st
  | .deleteChat name chatId => (chatDelete c.1 st name chatId).st

/-- Run a sequence of registry operations, each with its own environment. -/
def applyOps (st : State) (cs : List (Env × Op)) : State := cs.foldl applyOp st

/-! ## String primitives used by the sources -/

/-- White space and line terminators, the code units `String.prototype.trim`
strips and `parseInt` skips. -/
def isJsSpace (c : Nat) : Bool :=
  c == 9 || c == 10 || c == 11 || c == 12 || c == 13 || c == 32 || c == 160 ||
  c == 5760 || (8192 ≤ c && c ≤ 8202) || c == 8232 || c == 8233 || c == 8239 ||
  c == 8287 || c == 12288 || c == 65279

/-- Method `String.prototype.trim`. -/
def trim (s : JsString) : JsString :=
  ((s.dropWhile isJsSpace).reverse.dropWhile isJsSpace).reverse

/-- Method `s.slice(a, b)` for integers `0 ≤ a`, `0 ≤ b`. -/
def slice (s : JsString) (a b : Nat) : JsString := (s.take b).drop a

/-- Method `s.slice(a)` for an integer `0 ≤ a`. -/
def sliceFrom (s : JsString) (a : Nat) : JsString := s.drop a

/-- Method `s.split('\n')`: the pieces between line feeds (code unit 10). -/
def splitLines : JsString → List JsString
  | [] => [[]]
  | c :: s =>
    if c = 10 then [] :: splitLines s
    else
      match splitLines s with
      | [] => [[c]]
      | l :: ls => (c :: l) :: ls

/-- Method `s.lastIndexOf(c)` for a one-unit needle; `none` is `-1`. -/
def lastIndexOf (c : Nat) : JsString → Option Nat
  | [] => none
  | x :: s =>
    match lastIndexOf c s with
    | some i => some (i + 1)
    | none => if x = c then some 0 else none

/-- Decimal digit test, code units `0`..`9`. -/
def isDigit (c : Nat) : Bool := 48 ≤ c && c ≤ 57

/-- Function `parseInt(s, 10)`; `none` is `NaN`. Leading white space is skipped,
one sign is read, then the longest run of digits; what follows is ignored. The
value is the exact integer (JavaScript rounds integers beyond `2^53` to a
double; no port number is that large). -/
def parseInt (s : JsString) : Option Int :=
  let t := s.dropWhile isJsSpace
  let signed : Bool × JsString :=
    match t with
    | 45 :: r => (true, r)
    | 43 :: r => (false, r)
    | _ => (false, t)
  let ds := signed.2.takeWhile isDigit
  if ds = [] then none
  else
    let v : Nat := ds.foldl (fun a d => 10 * a + (d - 48)) 0
    some (if signed.1 then -(v : Int) else (v : Int))

/-! ## Peer candidates (`getLivePeers`, the parsing loop) -/

/-- One element of the `peers` array built by the parsing loop. -/
structure Candidate where
  host : JsString
  port : Int
deriving DecidableEq, Repr

/-- Loop variables `seen` and `peers` of `getLivePeers`. -/
structure Scan where
  seen : List JsString
  peers : List Candidate
deriving DecidableEq, Repr

/-- Body of `for (const raw of ....split('\n'))` in `getLivePeers`. -/
def scanLine (syncPort : Int) (acc : Scan) (raw : JsString) : Scan :=
  let l := trim raw
  if l = [] ∨ setHas acc.seen l then acc
  else
    let seen := setAdd acc.seen l
    match lastIndexOf 58 l with
    | none => { acc with seen := seen }
    | some i =>
      let host := slice l 0 i
      match parseInt (sliceFrom l (i + 1)) with
      | none => { acc with seen := seen }
      | some port =>
        if port ≠ syncPort then { seen := seen, peers := acc.peers ++ [⟨host, port⟩] }
        else { acc with seen := seen }

/-- The `peers` array of `getLivePeers` once the parsing loop has read the
registry file `content`. -/
def peerCandidates (syncPort : Int) (content : JsString) : List Candidate :=
  ((splitLines content).foldl (scanLine syncPort) ⟨[], []⟩).peers

/-! ## Renderer: the add-chat dialog (`btnAddSubmit` click handler) -/

/-- One element of the renderer's `state.chats`. -/
structure RChat where
  name : JsString
  loaded : Bool
  chatId : Option Nat
  userKey : Option JsString
  secretId : Option JsString
  isInitiator : Option Bool
deriving DecidableEq, Repr

/-- How a click on the submit button ends. `hint` is `setHint(text, true)`
followed by `return` before any IPC call; `failed` is the hint shown for a
failure reply; `added` is the entry pushed onto `state.chats`. -/
inductive Submit where
  | hint (text : String)
  | failed (text : String)
  | added (chat : RChat)
deriving DecidableEq, Repr

/-- Everything one click on the submit button leaves behind: main-process state,
the renderer's `state.chats`, the outcome, the text put in `credInviteCode`
(create branch only), and the outside calls the main process made. -/
structure Flow where
  st : State
  chats : List RChat
  outcome : Submit
  credInviteCode : Option JsString
  calls : List Call
deriving DecidableEq, Repr

/-- Expression `result.error || fallback`: an empty message is falsy. -/
def orElse (error fallback : String) : String :=
  if error = "" then fallback else error

/-- Reading of a reply by the dialog: the entry to push, or the hint to show. -/
def readReply (name : JsString) (isInitiator : Bool) (fallback : String) :
    Reply → Submit
  | .chat _ info =>
    .added ⟨name, true, some info.chatId, some info.userKey, some info.secretId,
      some isInitiator⟩
  | .fail e => .failed (orElse e fallback)
  | .done => .failed fallback
  | .sent r => .failed (orElse (r.error.getD "") fallback)

/-- Entries appended to `state.chats` by an outcome. -/
def Submit.pushed : Submit → List RChat
  | .added c => [c]
  | _ => []

/-- Create branch of the submit handler, `inputChatName.value = input`. -/
def submitCreate (env : Env) (st : State) (chats : List RChat) (input : JsString) : Flow :=
  let name := trim input
  if name = [] then ⟨st, chats, .hint "Please enter a chat name.", none, []⟩
  else if chats.any (fun c => c.name = name) then
    ⟨st, chats, .hint "A chat with that name already exists.", none, []⟩
  else
    let out := chatCreate env st name
    let outcome := readReply name true "Failed to create chat." out.reply
    let cred : Option JsString :=
      match out.reply with
      | .chat _ info => some (info.userKey ++ info.secretId)
      | _ => none
    ⟨out.st, chats ++ outcome.pushed, outcome, cred, out.calls⟩

/-- Join branch of the submit handler, `inputManualName.value = nameInput` and
`inputInviteCode.value = codeInput`, up to the end of the `chat:join` call: the
`openChat(name)` that follows a successful join is not part of `calls`. -/
def submitJoin (env : Env) (st : State) (chats : List RChat)
    (nameInput codeInput : JsString) : Flow :=
  let name := trim nameInput
  let code := trim codeInput
  if name = [] then ⟨st, chats, .hint "Enter a chat name.", none, []⟩
  else if code.length ≠ 64 then
    ⟨st, chats, .hint "Invite code must be 64 characters.", none, []⟩
  else
    let out := chatJoin env st name (slice code 0 32) (sliceFrom code 32)
    let outcome := readReply name false "Failed to join." out.reply
    ⟨out.st, chats ++ outcome.pushed, outcome, none, out.calls⟩

/-! ## Predicates used in the statements -/

/-- Is `o` a `messages:update` sent to the renderer with handle `c`? -/
def Obs.isUpdateFor (c : Nat) : Obs → Bool
  | .push (.messagesUpdate c' _ _ _) => c' == c
  | _ => false

/-- Was a `messages:update` for handle `c` sent to the renderer? -/
def notified (log : List Obs) (c : Nat) : Bool := log.any (Obs.isUpdateFor c)

/-- Snapshot `messageCounts.get(c) ?? 0`. -/
def snapshot (counts : List (Nat × Nat)) (c : Nat) : Nat := (mapGet counts c).getD 0

/-- Once an entry with handle `c` has been handled, `c` is settled: its snapshot is
the engine's count `n`, and it was notified exactly if `n` differed from `p`. -/
def Settled (c n p : Nat) (acc : Pass) : Prop :=
  snapshot acc.counts c = n ∧ (notified acc.log c = true ↔ n ≠ p)

/-! ## Sample data for the concrete instances -/

/-- An environment in which every addon call throws and no chat file exists. -/
def deadEnv : Env where
  loadChat := fun _ => .error "engine down"
  createChat := fun _ => .error "engine down"
  joinChat := fun _ _ _ => .error "engine down"
  saveChat := fun _ _ => .error "engine down"
  addDHTChat := fun _ => .error "engine down"
  getMessages := fun _ => .error "engine down"
  getChatInfo := fun _ => .error "engine down"
  sendMessage := fun _ _ => .error "engine down"
  destroyChat := fun _ => .error "engine down"
  fileExists := fun _ => false
  unlink := fun _ => .ok ()
  registryExists := false
  readRegistry := .error "ENOENT"

/-- An engine holding `n` messages in every chat, whose `getChatInfo` answers `info`. -/
def countingEnv (n : Nat) (info : Except String (Option ChatInfo)) : Env :=
  { deadEnv with
    getMessages := fun _ => .ok (List.replicate n ⟨js "hi", false, js "peer"⟩)
    getChatInfo := fun _ => info }

/-- The entry of the sample chat: handle 1. -/
def sampleEntry : ChatEntry := ⟨1, js "K1", js "S1", true⟩

/-- Addon loaded, window open, one chat `general` loaded with handle 1. -/
def sampleState : State where
  addon := true
  windowOpen := true
  syncPort := 9000
  loadedChats := [(js "general", sampleEntry)]
  messageCounts := [(1, 0)]
  savedChatNames := [js "general"]
  syncInProgress := false
  peerLastSeen := []

/-- The engine of `countingEnv 1` next to a registry file listing two peers. -/
def registryEnv : Env :=
  { countingEnv 1 (.ok none) with
    registryExists := true
    readRegistry := .ok (js "h:1\nk:2") }

/-- The registry file of the peer-parsing example. -/
def sampleRegistry : JsString := js "10.0.0.1:9000\n10.0.0.1:9000\nbad-line\n[::1]:9000"

/-- A 64-unit invite code: 32 times `a`, then 32 times `b`. -/
def sampleCode : JsString := List.replicate 32 97 ++ List.replicate 32 98

/-- An engine whose `joinChat` succeeds with handle 2 and hands back the keys it
was given; `saveChat` and `addDHTChat` succeed. -/
def echoEnv : Env :=
  { deadEnv with
    joinChat := fun _ userKey secretId => .ok ⟨2, userKey, secretId, false⟩
    saveChat := fun _ _ => .ok ()
    addDHTChat := fun _ => .ok () }

/-- An engine whose `joinChat` succeeds with handle 2 and keys of its own. -/
def rekeyEnv : Env :=
  { deadEnv with
    joinChat := fun _ _ _ => .ok ⟨2, js "K2", js "S2", false⟩
    saveChat := fun _ _ => .ok ()
    addDHTChat := fun _ => .ok () }

/-- The renderer's `state.chats` matching `sampleState`. -/
def sampleChats : List RChat :=
  [⟨js "general", true, some 1, some (js "K1"), some (js "S1"), some true⟩]

/-- Module state of `main.js` when it is loaded: no addon yet (`addon = null`,
`syncPort = -1`), empty maps, window open. It stays so when `initAddon` fails to
load the addon: `scanSavedChats` and `startLoops` run only after a successful load. -/
def initialState : State where
  addon := false
  windowOpen := true
  syncPort := -1
  loadedChats := []
  messageCounts := []
  savedChatNames := []
  syncInProgress := false
  peerLastSeen := []

/-! ## Peer candidates, line by line -/

/-- What the loop body of `getLivePeers` makes of one trimmed, non-blank, new
line: split at the last colon, `parseInt` of what follows, own port left out. -/
def parseLine (syncPort : Int) (l : JsString) : Option Candidate :=
  match lastIndexOf 58 l with
  | none => none
  | some i =>
    match parseInt (sliceFrom l (i + 1)) with
    | none => none
    | some port => if port ≠ syncPort then some ⟨slice l 0 i, port⟩ else none

/-- The distinct trimmed non-blank lines of the registry file, in order of first
occurrence. -/
def distinctLines (content : JsString) : List JsString :=
  setOf (((splitLines content).map trim).filter (fun l => decide (l ≠ [])))

/-- Does the text begin with a number: after leading white space and at most one
sign, a decimal digit? -/
def numericStart (s : JsString) : Bool :=
  match s.dropWhile isJsSpace with
  | 45 :: r => (r.takeWhile isDigit) ≠ []
  | 43 :: r => (r.takeWhile isDigit) ≠ []
  | t => (t.takeWhile isDigit) ≠ []

/-! ## Peer liveness (`getLivePeers`, the probing round) -/

/-- Decimal text of a natural number, as a template literal prints it. -/
def natDigits (n : Nat) : JsString := (Nat.toDigits 10 n).map Char.toNat

/-- Template text of an integer port, `${p.port}`: all its digits (JavaScript
prints a double, which differs only beyond `2^53`; no port number is that large). -/
def showInt : Int → JsString
  | Int.ofNat n => natDigits n
  | Int.negSucc n => 45 :: natDigits (n + 1)

/-- Key of a candidate in `peerLastSeen`: the template `${p.host}:${p.port}`. -/
def peerKey (p : Candidate) : JsString := p.host ++ [58] ++ showInt p.port

/-- Expression `peerLastSeen.get(key) || null`: `undefined` and a stored 0 both
read as `null`. -/
def orNull : Option Nat → Option Nat
  | some 0 => none
  | some t => some t
  | none => none

/-- How `probePeer` ended: resolved `true`, resolved `false` (error or
timeout), or rejected because `net.connect` threw. -/
inductive ProbeResult where
  | live
  | dead
  | threw
deriving DecidableEq, Repr

/-- The moment the callback of candidate number `index` resumes after
`await probePeer(...)`; `now` is what `Date.now()` returns then. -/
structure Settle where
  index : Nat
  result : ProbeResult
  now : Nat
deriving DecidableEq, Repr

/-- Slot of one candidate in the array awaited by `Promise.all`. -/
inductive Slot where
  | pending
  | done (r : PeerRecord)
  | failed
deriving DecidableEq, Repr

/-- The map `peerLastSeen` and the slots while a round is under way. -/
structure Round where
  lastSeen : List (JsString × Nat)
  slots : List Slot
deriving DecidableEq, Repr

/-- Rest of the callback `async p => { ... }` of `getLivePeers` once its probe
has settled. A candidate settles once; an event for no pending slot changes nothing. -/
def settle (peers : List Candidate) (acc : Round) (e : Settle) : Round :=
  match peers[e.index]?, acc.slots[e.index]? with
  | some p, some Slot.pending =>
    match e.result with
    | .threw => { acc with slots := acc.slots.set e.index .failed }
    | .dead =>
      { acc with
        slots := acc.slots.set e.index
          (.done ⟨p.host, p.port, false, orNull (mapGet acc.lastSeen (peerKey p))⟩) }
    | .live =>
      let seen := mapSet acc.lastSeen (peerKey p) e.now
      { lastSeen := seen
        slots := acc.slots.set e.index
          (.done ⟨p.host, p.port, true, orNull (mapGet seen (peerKey p))⟩) }
  | _, _ => acc

/-- Start of a round: every candidate's probe is under way. -/
def Round.start (lastSeen : List (JsString × Nat)) (peers : List Candidate) : Round :=
  ⟨lastSeen, peers.map (fun _ => Slot.pending)⟩

/-- Records of the slots that are done, in candidate order. -/
def doneRecords (slots : List Slot) : List PeerRecord :=
  slots.filterMap fun s =>
    match s with
    | .done r => some r
    | _ => none

/-- What `getLivePeers` returns for the slots reached: `{ count: 0, peers: [] }`
as soon as one callback rejected (the `catch`), the records and the number of
live ones once all are done, nothing yet (`none`) while a probe is pending. -/
def roundResult (slots : List Slot) : Option PeersResult :=
  if Slot.failed ∈ slots then some ⟨0, []⟩
  else if Slot.pending ∈ slots then none
  else some ⟨((doneRecords slots).filter (fun r => r.live)).length, doneRecords slots⟩

/-- Function `getLivePeers`. `registry` is the content of `registry.db`, `none`
when the file is missing or cannot be read; `es` lists, in the order they
happen, the settlements of the probes. Returns the state with the updated
`peerLastSeen` and the value the promise resolves with. -/
def getLivePeers (st : State) (registry : Option JsString) (es : List Settle) :
    State × Option PeersResult :=
  match registry with
  | none => (st, some ⟨0, []⟩)
  | some content =>
    let peers := peerCandidates st.syncPort content
    let round := es.foldl (settle peers) (Round.start st.peerLastSeen peers)
    ({ st with peerLastSeen := round.lastSeen }, roundResult round.slots)

/-- Every record already in a slot shows, for its candidate, what `peerLastSeen`
holds now for that candidate's key. -/
def RecordsCurrent (peers : List Candidate) (acc : Round) : Prop :=
  ∀ (i : Nat) (r : PeerRecord), acc.slots[i]? = some (Slot.done r) →
    ∃ p, peers[i]? = some p ∧ r.host = p.host ∧ r.port = p.port ∧
      r.lastSeen = orNull (mapGet acc.lastSeen (peerKey p))

/-! ## Sync timer (`startLoops`) -/

/-- Where a run of the 500 ms callback that passed its guard is suspended. -/
inductive TickPhase where
  | awaitSync
  | awaitPeers
  | finished
deriving DecidableEq, Repr

/-- Content of `registry.db` as `getLivePeers` gets it: `none` when
`fs.existsSync` answers false or `fs.readFileSync` throws. -/
def registryOf (env : Env) : Option JsString :=
  if env.registryExists then
    match env.readRegistry with
    | .ok content => some content
    | .error _ => none
  else none

/-- Part of `getLivePeers()` that runs before its `await`: test for the
registry, read it, collect the candidates, and start one `probePeer` (one
`net.connect`) per candidate, in order. Returns the candidates and what was
called. -/
def startRound (syncPort : Int) (env : Env) : List Candidate × List Obs :=
  if env.registryExists then
    match env.readRegistry with
    | .ok content =>
      let peers := peerCandidates syncPort content
      (peers, [.call .registryExists, .call .readRegistry]
        ++ peers.map (fun p => .call (.connect p.host p.port)))
    | .error _ => ([], [.call .registryExists, .call .readRegistry])
  else ([], [.call .registryExists])

/-- The main process seen from the sync timer: module state, every callback run
that passed the guard (in start order), the probing round of each run that got
as far as `getLivePeers()` (candidates and slots, by run number), and everything
pushed and called so far. -/
structure Loop where
  st : State
  ticks : List TickPhase
  rounds : List (Nat × List Candidate × List Slot)
  log : List Obs

/-- What can happen next: the timer fires, or a promise awaited by callback run
`i` settles. `syncResolved i added env` resolves `addon.syncWithPeers()` with
`added` (`env` answers the calls of the `checkNewMessages` pass that may follow
and the registry reads of `getLivePeers()`); `probeSettled i e` resumes one
candidate callback of run `i`; `peersResolved i` resolves `getLivePeers()` of
run `i` with the value its slots give. -/
inductive Ev where
  | timer
  | syncResolved (i : Nat) (added : Int) (env : Env)
  | syncRejected (i : Nat)
  | probeSettled (i : Nat) (e : Settle)
  | peersResolved (i : Nat)
  | peersRejected (i : Nat)

/-- One event of the sync timer of `startLoops`. An event for a callback run
that is not suspended at the matching `await` cannot happen and changes nothing;
`getLivePeers()` cannot resolve while `Promise.all` is still waiting. -/
def step (s : Loop) : Ev → Loop
  | .timer =>
    if !s.st.addon || s.st.syncInProgress then s
    else
      { s with
        st := { s.st with syncInProgress := true }
        ticks := s.ticks ++ [.awaitSync]
        log := s.log ++ pushToRenderer s.st .syncStart ++ [.call .syncWithPeers] }
  | .syncResolved i added env =>
    if s.ticks[i]? = some .awaitSync then
      let done := pushToRenderer s.st (.syncDone added)
      let r := if added > 0 then checkNewMessages env s.st else (s.st, [])
      let round := startRound r.1.syncPort env
      { st := r.1
        ticks := s.ticks.set i .awaitPeers
        rounds := mapSet s.rounds i (round.1, round.1.map (fun _ => Slot.pending))
        log := s.log ++ done ++ r.2 ++ round.2 }
    else s
  | .syncRejected i =>
    if s.ticks[i]? = some .awaitSync then
      { s with st := { s.st with syncInProgress := false }, ticks := s.ticks.set i .finished }
    else s
  | .probeSettled i e =>
    match mapGet s.rounds i with
    | some (peers, slots) =>
      let round := settle peers ⟨s.st.peerLastSeen, slots⟩ e
      { s with
        st := { s.st with peerLastSeen := round.lastSeen }
        rounds := mapSet s.rounds i (peers, round.slots) }
    | none => s
  | .peersResolved i =>
    if s.ticks[i]? = some .awaitPeers then
      match (mapGet s.rounds i).bind (fun round => roundResult round.2) with
      | some r =>
        { s with
          st := { s.st with syncInProgress := false }
          ticks := s.ticks.set i .finished
          log := s.log ++ pushToRenderer s.st (.peersUpdate r.count r.peers) }
      | none => s
    else s
  | .peersRejected i =>
    if s.ticks[i]? = some .awaitPeers then
      { s with st := { s.st with syncInProgress := false }, ticks := s.ticks.set i .finished }
    else s

/-- Run a sequence of events. -/
def run (s : Loop) (evs : List Ev) : Loop := evs.foldl step s

/-- Events of one callback run, number `i`, that goes through: the firing, the
engine call resolving with `added`, the probes settling as `es` lists them, and
`getLivePeers()` resolving; `a`, `b` and `c` further timer firings fall in
between. -/
def tickEvents (i a b c : Nat) (added : Int) (env : Env) (es : List Settle) : List Ev :=
  [Ev.timer] ++ List.replicate a Ev.timer ++ [Ev.syncResolved i added env]
    ++ List.replicate b Ev.timer ++ es.map (Ev.probeSettled i)
    ++ List.replicate c Ev.timer ++ [Ev.peersResolved i]

/-- Loop state right after `startLoops`: nothing in flight. -/
def Loop.start (st : State) : Loop := ⟨st, [], [], []⟩

/-- Number of timer-driven `addon.syncWithPeers()` calls not yet settled. -/
def outstanding (s : Loop) : Nat := s.ticks.count .awaitSync

/-- Number of callback runs that have not reached the end of `finally`. -/
def running (s : Loop) : Nat := s.ticks.countP (fun p => p != .finished)

/-- The guard flag is clear only when no callback run is still going, and at
most one is going. -/
def LoopInv (s : Loop) : Prop :=
  (s.st.syncInProgress = false → running s = 0) ∧ running s ≤ 1

/-- What a failed callback run `i` leaves behind, `s` being the loop before the
failure and `s'` after it: nothing more was pushed or called, the flag is clear,
run `i` and every other run are over, and the next timer firing announces and
starts a new engine call. -/
def Absorbed (s s' : Loop) (i : Nat) : Prop :=
  s'.log = s.log ∧
  s'.st.syncInProgress = false ∧
  s'.ticks[i]? = some TickPhase.finished ∧
  running s' = 0 ∧
  (step s' Ev.timer).log = s'.log ++ pushToRenderer s'.st Push.syncStart ++ [Obs.call Call.syncWithPeers] ∧
  outstanding (step s' Ev.timer) = 1

/-- A callback run exists only if the addon is loaded. -/
def LoopAddon (s : Loop) : Prop := s.ticks ≠ [] → s.st.addon = true

/-! ## Renderer: turn bar and unread counts -/

/-- The parts of the renderer's `state` and of the page that `updateTurnBar` and
the `messages:update` listener read and write. A stored turn code `none` is
`undefined`. -/
structure RState where
  currentName : Option JsString
  currentChatId : Option Nat
  messages : List (Nat × List Msg)
  chatState : List (Nat × Option Nat)
  unreadCounts : List (JsString × Nat)
  turnBarShown : Bool
  turnBarText : String
  btnSendDisabled : Bool
deriving DecidableEq, Repr

/-- Function `updateTurnBar`. -/
def updateTurnBar (s : RState) : RState :=
  match s.currentChatId with
  | none => { s with turnBarShown := false }
  | some chatId =>
    let code : Option Nat := (mapGet s.chatState chatId).join
    if code = some 2 then
      { s with
        turnBarShown := true
        turnBarText := "Waiting for peer to respond…"
        btnSendDisabled := true }
    else { s with turnBarShown := false, btnSendDisabled := false }

/-- Listener `window.dcomms.onMessagesUpdate` for the data
`{ chatId, name, messages, state: code }`. `renderMessages` and `renderSidebar`
only redraw. -/
def onMessagesUpdate (s : RState) (chatId : Nat) (name : JsString) (messages : List Msg)
    (code : Option Nat) : RState :=
  let s1 : RState :=
    { s with
      messages := mapSet s.messages chatId messages
      chatState := mapSet s.chatState chatId code }
  if s1.currentChatId = some chatId then updateTurnBar s1
  else
    let prev := ((mapGet s1.messages chatId).getD []).length
    { s1 with
      unreadCounts := mapSet s1.unreadCounts name
        ((mapGet s1.unreadCounts name).getD 0 + (messages.length - prev)) }

/-- Turn code that `checkNewMessages` reports for the engine's answer:
`chatInfo ? chatInfo.state : 0`. -/
def reportedCode (chatInfo : Option ChatInfo) : Option Nat :=
  match chatInfo with
  | some ci => ci.state
  | none => some 0

/-- A renderer with chat `general` (handle 1) known and empty, and no chat open. -/
def sampleRenderer : RState where
  currentName := none
  currentChatId := none
  messages := [(1, [])]
  chatState := [(1, some 0)]
  unreadCounts := []
  turnBarShown := false
  turnBarText := ""
  btnSendDisabled := false

/-! # Properties -/

/-! ## Sync timer: at most one call in flight -/

theorem countP_set_of_getElem {α : Type} (p : α → Bool) (a b : α) :
    ∀ (l : List α) (i : Nat), l[i]? = some b →
      (l.set i a).countP p + (if p b then 1 else 0) = l.countP p + (if p a then 1 else 0) := by
  intro l
  induction l with
  | nil => intro i h; simp at h
  | cons x xs ih =>
    intro i h
    cases i with
    | zero =>
      simp at h
      subst h
      simp [List.countP_cons]
      omega
    | succ j =>
      simp at h
      have := ih j h
      simp [List.countP_cons]
      omega

theorem checkNewMessages_syncInProgress (env : Env) (st : State) :
    (checkNewMessages env st).1.syncInProgress = st.syncInProgress := by
  unfold checkNewMessages
  split <;> rfl

theorem checkNewMessages_addon (env : Env) (st : State) :
    (checkNewMessages env st).1.addon = st.addon := by
  unfold checkNewMessages
  split <;> rfl

theorem loopInv_start (st : State) : LoopInv (Loop.start st) := by
  simp [LoopInv, Loop.start, running]

theorem loopInv_step (s : Loop) (e : Ev) (h : LoopInv s) : LoopInv (step s e) := by
  obtain ⟨h0, h1⟩ := h
  cases e with
  | timer =>
    simp only [step]
    split_ifs with hg
    · exact ⟨h0, h1⟩
    · simp at hg
      have hz := h0 hg.2
      simp only [running] at hz
      simp [LoopInv, running, List.countP_append, hz]
  | syncResolved i added env =>
    by_cases hi : s.ticks[i]? = some TickPhase.awaitSync
    · have hc := countP_set_of_getElem (fun p => p != TickPhase.finished) TickPhase.awaitPeers
        TickPhase.awaitSync s.ticks i hi
      simp at hc
      have hf : (if added > 0 then checkNewMessages env s.st else (s.st, [])).1.syncInProgress
          = s.st.syncInProgress := by
        split_ifs
        · exact checkNewMessages_syncInProgress env s.st
        · rfl
      simp only [step, if_pos hi, LoopInv, running, hf, hc] at *
      exact ⟨h0, h1⟩
    · simp only [step, if_neg hi]
      exact ⟨h0, h1⟩
  | syncRejected i =>
    simp only [step]
    split_ifs with hi
    · have hc := countP_set_of_getElem (fun p => p != TickPhase.finished) TickPhase.finished
        TickPhase.awaitSync s.ticks i hi
      simp at hc
      simp only [LoopInv, running] at *
      constructor
      · intro _; omega
      · omega
    · exact ⟨h0, h1⟩
  | probeSettled i e =>
    simp only [step]
    split
    · exact ⟨h0, h1⟩
    · exact ⟨h0, h1⟩
  | peersResolved i =>
    simp only [step]
    split_ifs with hi
    · have hc := countP_set_of_getElem (fun p => p != TickPhase.finished) TickPhase.finished
        TickPhase.awaitPeers s.ticks i hi
      simp at hc
      split
      · simp only [LoopInv, running] at *
        constructor
        · intro _; omega
        · omega
      · exact ⟨h0, h1⟩
    · exact ⟨h0, h1⟩
  | peersRejected i =>
    simp only [step]
    split_ifs with hi
    · have hc := countP_set_of_getElem (fun p => p != TickPhase.finished) TickPhase.finished
        TickPhase.awaitPeers s.ticks i hi
      simp at hc
      simp only [LoopInv, running] at *
      constructor
      · intro _; omega
      · omega
    · exact ⟨h0, h1⟩

theorem loopInv_run (evs : List Ev) : ∀ s : Loop, LoopInv s → LoopInv (run s evs) := by
  induction evs with
  | nil => intro s h; exact h
  | cons e es ih => intro s h; exact ih (step s e) (loopInv_step s e h)

theorem outstanding_le_running (s : Loop) : outstanding s ≤ running s := by
  unfold outstanding running List.count
  apply List.countP_mono_left
  intro p _ hp
  simp at hp
  subst hp
  decide

/-- C1 (at most one in flight). Start the sync timer of `startLoops` in any state
(so also with `syncInProgress = false`) and let timer firings and settlements of
the awaited promises, successes and failures alike, arrive in any order: the
number of timer-driven `addon.syncWithPeers()` calls outstanding at the same
time never exceeds one, and a timer firing that finds `syncInProgress` set
changes nothing: it adds no engine call to the trace and pushes nothing. -/
theorem sync_at_most_one_in_flight (st : State) (evs : List Ev) :
    outstanding (run (Loop.start st) evs) ≤ 1 ∧
    ((run (Loop.start st) evs).st.syncInProgress = true →
      step (run (Loop.start st) evs) Ev.timer = run (Loop.start st) evs) := by
  have hinv := loopInv_run evs (Loop.start st) (loopInv_start st)
  refine ⟨le_trans (outstanding_le_running _) hinv.2, ?_⟩
  intro hf
  simp [step, hf]

theorem mapGet_mapSet_same {κ ν : Type} [DecidableEq κ] (m : List (κ × ν)) (k : κ) (v : ν) :
    mapGet (mapSet m k v) k = some v := by
  induction m with
  | nil => simp [mapSet, mapGet]
  | cons e m ih =>
    obtain ⟨k', v'⟩ := e
    by_cases h : k' = k
    · simp [mapSet, mapGet, h]
    · simp [mapSet, mapGet, h, ih]

theorem mapGet_mapSet_ne {κ ν : Type} [DecidableEq κ] (m : List (κ × ν)) (k k' : κ) (v : ν)
    (hne : k ≠ k') : mapGet (mapSet m k v) k' = mapGet m k' := by
  induction m with
  | nil => simp [mapSet, mapGet, hne]
  | cons e m ih =>
    obtain ⟨k0, v0⟩ := e
    by_cases h : k0 = k
    · subst h
      simp [mapSet, mapGet, hne]
    · simp [mapSet, mapGet, h, ih]

theorem notified_append (a b : List Obs) (c : Nat) :
    notified (a ++ b) c = (notified a c || notified b c) := by
  simp [notified, List.any_append]

/-- An entry with another handle leaves the snapshot and the notifications of `c` alone. -/
theorem checkOne_other (env : Env) (st : State) (acc : Pass) (e : JsString × ChatEntry)
    (c : Nat) (hne : e.2.chatId ≠ c) :
    snapshot (checkOne env st acc e).counts c = snapshot acc.counts c ∧
    notified (checkOne env st acc e).log c = notified acc.log c := by
  unfold checkOne
  cases env.getMessages e.2.chatId with
  | error _ => simp [notified, Obs.isUpdateFor]
  | ok msgs =>
    simp only
    split_ifs with hlen
    · cases env.getChatInfo e.2.chatId with
      | error _ =>
        simp [snapshot, mapGet_mapSet_ne _ _ _ _ hne, notified, Obs.isUpdateFor]
      | ok ci =>
        simp only [snapshot, mapGet_mapSet_ne _ _ _ _ hne, notified_append, true_and]
        unfold pushToRenderer
        split_ifs <;> simp [notified, Obs.isUpdateFor, hne]
    · simp [notified, Obs.isUpdateFor]

/-- An entry with handle `c` brings the snapshot of `c` to the engine's count,
whatever `getChatInfo` does. -/
theorem checkOne_same_count (env : Env) (st : State) (acc : Pass) (e : JsString × ChatEntry)
    (msgs : List Msg) (hm : env.getMessages e.2.chatId = .ok msgs) :
    snapshot (checkOne env st acc e).counts e.2.chatId = msgs.length := by
  unfold checkOne
  rw [hm]
  simp only
  split_ifs with hlen
  · cases env.getChatInfo e.2.chatId with
    | error _ => simp [snapshot, mapGet_mapSet_same]
    | ok ci => simp [snapshot, mapGet_mapSet_same]
  · simp only [ne_eq, not_not] at hlen
    simp [snapshot, hlen]


/-- An entry with handle `c` notifies exactly when the engine's count differs from
the snapshot, provided `getChatInfo` answers and the window is open. -/
theorem checkOne_same_notify (env : Env) (st : State) (acc : Pass) (e : JsString × ChatEntry)
    (msgs : List Msg) (ci : Option ChatInfo) (hw : st.windowOpen = true)
    (hm : env.getMessages e.2.chatId = .ok msgs) (hi : env.getChatInfo e.2.chatId = .ok ci) :
    notified (checkOne env st acc e).log e.2.chatId =
      (notified acc.log e.2.chatId || decide (msgs.length ≠ snapshot acc.counts e.2.chatId)) := by
  unfold checkOne
  rw [hm]
  simp only
  split_ifs with hlen
  · rw [hi]
    have hlen' : msgs.length ≠ snapshot acc.counts e.2.chatId := hlen
    simp [notified_append, pushToRenderer, hw, notified, Obs.isUpdateFor, hlen']
  · have hlen' : ¬ msgs.length ≠ snapshot acc.counts e.2.chatId := hlen
    simp [hlen', notified, Obs.isUpdateFor]

theorem fold_counts_settled (env : Env) (st : State) (c : Nat) (msgs : List Msg)
    (hm : env.getMessages c = .ok msgs) :
    ∀ (l : List (JsString × ChatEntry)) (acc : Pass), snapshot acc.counts c = msgs.length →
      snapshot (l.foldl (checkOne env st) acc).counts c = msgs.length := by
  intro l
  induction l with
  | nil => intro acc h; exact h
  | cons e es ih =>
    intro acc h
    apply ih
    by_cases hc : e.2.chatId = c
    · subst hc
      exact checkOne_same_count env st acc e msgs hm
    · rw [(checkOne_other env st acc e c hc).1]
      exact h

theorem fold_counts (env : Env) (st : State) (c : Nat) (msgs : List Msg)
    (hm : env.getMessages c = .ok msgs) :
    ∀ (l : List (JsString × ChatEntry)) (acc : Pass), (∃ e ∈ l, e.2.chatId = c) →
      snapshot (l.foldl (checkOne env st) acc).counts c = msgs.length := by
  intro l
  induction l with
  | nil => intro acc h; simp at h
  | cons e es ih =>
    intro acc h
    by_cases hc : e.2.chatId = c
    · subst hc
      exact fold_counts_settled env st _ msgs hm es _ (checkOne_same_count env st acc e msgs hm)
    · apply ih
      obtain ⟨e', he', hc'⟩ := h
      rcases List.mem_cons.mp he' with rfl | hmem
      · exact absurd hc' hc
      · exact ⟨e', hmem, hc'⟩

theorem fold_settled (env : Env) (st : State) (c p : Nat) (msgs : List Msg)
    (ci : Option ChatInfo) (hw : st.windowOpen = true)
    (hm : env.getMessages c = .ok msgs) (hi : env.getChatInfo c = .ok ci) :
    ∀ (l : List (JsString × ChatEntry)) (acc : Pass), Settled c msgs.length p acc →
      Settled c msgs.length p (l.foldl (checkOne env st) acc) := by
  intro l
  induction l with
  | nil => intro acc h; exact h
  | cons e es ih =>
    intro acc h
    apply ih
    by_cases hc : e.2.chatId = c
    · subst hc
      refine ⟨checkOne_same_count env st acc e msgs hm, ?_⟩
      rw [checkOne_same_notify env st acc e msgs ci hw hm hi, h.1]
      simpa using h.2
    · obtain ⟨h1, h2⟩ := checkOne_other env st acc e c hc
      exact ⟨h1 ▸ h.1, h2 ▸ h.2⟩

theorem fold_notify (env : Env) (st : State) (c : Nat) (msgs : List Msg)
    (ci : Option ChatInfo) (hw : st.windowOpen = true)
    (hm : env.getMessages c = .ok msgs) (hi : env.getChatInfo c = .ok ci) :
    ∀ (l : List (JsString × ChatEntry)) (acc : Pass), (∃ e ∈ l, e.2.chatId = c) →
      notified acc.log c = false →
      Settled c msgs.length (snapshot acc.counts c) (l.foldl (checkOne env st) acc) := by
  intro l
  induction l with
  | nil => intro acc h; simp at h
  | cons e es ih =>
    intro acc h hn
    by_cases hc : e.2.chatId = c
    · subst hc
      rw [List.foldl_cons]
      apply fold_settled env st _ _ msgs ci hw hm hi
      refine ⟨checkOne_same_count env st acc e msgs hm, ?_⟩
      rw [checkOne_same_notify env st acc e msgs ci hw hm hi, hn]
      simp
    · obtain ⟨h1, h2⟩ := checkOne_other env st acc e c hc
      have := ih (checkOne env st acc e) (by
        obtain ⟨e', he', hc'⟩ := h
        rcases List.mem_cons.mp he' with rfl | hmem
        · exact absurd hc' hc
        · exact ⟨e', hmem, hc'⟩) (h2 ▸ hn)
      rw [h1] at this
      exact this

theorem checkNewMessages_frame (env : Env) (st : State) :
    (checkNewMessages env st).1.addon = st.addon ∧
    (checkNewMessages env st).1.windowOpen = st.windowOpen ∧
    (checkNewMessages env st).1.loadedChats = st.loadedChats := by
  unfold checkNewMessages
  split <;> simp

/-- Two passes in a row on which the engine answers for handle `info.chatId`: the
second pass notifies exactly when the count grew. -/
theorem two_passes_notify (env1 env2 : Env) (st : State) (name : JsString)
    (info : ChatEntry) (msgs1 msgs2 : List Msg) (ci : Option ChatInfo)
    (haddon : st.addon = true) (hwin : st.windowOpen = true)
    (hloaded : (name, info) ∈ st.loadedChats)
    (hm1 : env1.getMessages info.chatId = .ok msgs1)
    (hm2 : env2.getMessages info.chatId = .ok msgs2)
    (hi2 : env2.getChatInfo info.chatId = .ok ci)
    (hgrow : msgs1.length ≤ msgs2.length) :
    (notified (checkNewMessages env2 (checkNewMessages env1 st).1).2 info.chatId = true
      ↔ msgs1.length < msgs2.length) := by
  obtain ⟨ha, hw, hl⟩ := checkNewMessages_frame env1 st
  have hsnap : snapshot (checkNewMessages env1 st).1.messageCounts info.chatId = msgs1.length := by
    simp only [checkNewMessages, haddon, if_true]
    exact fold_counts env1 st info.chatId msgs1 hm1 _ _ ⟨(name, info), hloaded, rfl⟩
  have hmem : ∃ e ∈ (checkNewMessages env1 st).1.loadedChats, e.2.chatId = info.chatId :=
    ⟨(name, info), hl ▸ hloaded, rfl⟩
  generalize checkNewMessages env1 st = r1 at *
  obtain ⟨st1, p1⟩ := r1
  simp only at ha hw hl hsnap hmem ⊢
  have key := fold_notify env2 st1 info.chatId msgs2 ci (hw.trans hwin) hm2 hi2
    st1.loadedChats ⟨st1.messageCounts, []⟩ hmem (by simp [notified])
  simp only [checkNewMessages, ha.trans haddon, if_true]
  rw [key.2, hsnap]
  omega

/-- An entry with handle `c` sends nothing for `c` when `getMessages` or
`getChatInfo` throws for `c`: the `catch` swallows the error. -/
theorem checkOne_same_throw (env : Env) (st : State) (acc : Pass) (e : JsString × ChatEntry)
    (h : (∃ err, env.getMessages e.2.chatId = .error err) ∨
      (∃ err, env.getChatInfo e.2.chatId = .error err)) :
    notified (checkOne env st acc e).log e.2.chatId = notified acc.log e.2.chatId := by
  unfold checkOne
  cases hm : env.getMessages e.2.chatId with
  | error _ => simp [notified, Obs.isUpdateFor]
  | ok msgs =>
    simp only
    split_ifs with hlen
    · rcases h with ⟨err, he⟩ | ⟨err, he⟩
      · rw [hm] at he
        cases he
      · rw [he]
        simp [notified, Obs.isUpdateFor]
    · simp [notified, Obs.isUpdateFor]

theorem fold_no_notify (env : Env) (st : State) (c : Nat)
    (h : (∃ err, env.getMessages c = .error err) ∨ (∃ err, env.getChatInfo c = .error err)) :
    ∀ (l : List (JsString × ChatEntry)) (acc : Pass), notified acc.log c = false →
      notified (l.foldl (checkOne env st) acc).log c = false := by
  intro l
  induction l with
  | nil => intro acc hn; exact hn
  | cons e es ih =>
    intro acc hn
    rw [List.foldl_cons]
    apply ih
    by_cases hc : e.2.chatId = c
    · subst hc
      rw [checkOne_same_throw env st acc e h]
      exact hn
    · rw [(checkOne_other env st acc e c hc).2]
      exact hn

/-- A pass on which `getMessages` or `getChatInfo` throws for handle `c` sends no
`messages:update` for `c`, in any state. -/
theorem pass_no_notify (env : Env) (st : State) (c : Nat)
    (h : (∃ err, env.getMessages c = .error err) ∨ (∃ err, env.getChatInfo c = .error err)) :
    notified (checkNewMessages env st).2 c = false := by
  unfold checkNewMessages
  split_ifs
  · exact fold_no_notify env st c h _ _ (by simp [notified])
  · simp [notified]

/-- C2 (change detector, as amended). Take a loaded conversation, with the addon
loaded and the main window open, and two `checkNewMessages` passes in a row on
which `getMessages` answers for its handle, with `n1` and then `n2 ≥ n1` messages,
and on the second of which `getChatInfo` answers. Then a `messages:update`
carrying that handle is pushed on the second pass exactly when `n2 > n1`: on
every such pass where the count grew, on none where it stayed equal. And a pass
on which `getMessages` or `getChatInfo` throws for that handle, in whatever
state it runs, pushes no `messages:update` for it. -/
theorem change_detector_monotone (env1 env2 : Env) (st : State) (name : JsString)
    (info : ChatEntry) (msgs1 msgs2 : List Msg) (ci : Option ChatInfo)
    (haddon : st.addon = true) (hwin : st.windowOpen = true)
    (hloaded : (name, info) ∈ st.loadedChats)
    (hm1 : env1.getMessages info.chatId = .ok msgs1)
    (hm2 : env2.getMessages info.chatId = .ok msgs2)
    (hi2 : env2.getChatInfo info.chatId = .ok ci)
    (hgrow : msgs1.length ≤ msgs2.length) :
    (notified (checkNewMessages env2 (checkNewMessages env1 st).1).2 info.chatId = true
      ↔ msgs1.length < msgs2.length) ∧
    (∀ (env3 : Env) (st3 : State),
      ((∃ err, env3.getMessages info.chatId = .error err) ∨
        (∃ err, env3.getChatInfo info.chatId = .error err)) →
      notified (checkNewMessages env3 st3).2 info.chatId = false) :=
  ⟨two_passes_notify env1 env2 st name info msgs1 msgs2 ci haddon hwin hloaded hm1 hm2 hi2 hgrow,
    fun env3 st3 h => pass_no_notify env3 st3 info.chatId h⟩

/-- C2, the claim as stated fails. With the window open, `general` loaded and
the engine going from one message to two, no `messages:update` is pushed on the
second pass when `getChatInfo` throws on it; and none is pushed either, whatever
the engine does, while there is no window. -/
theorem change_detector_misses_increase :
    (notified (checkNewMessages (countingEnv 2 (.error "busy"))
        (checkNewMessages (countingEnv 1 (.ok none)) sampleState).1).2 1 = false) ∧
    (notified (checkNewMessages (countingEnv 2 (.ok none))
        (checkNewMessages (countingEnv 1 (.ok none))
          { sampleState with windowOpen := false }).1).2 1 = false) := by
  constructor <;> decide

/-- Instance of `change_detector_monotone`: one message, then two; then a pass
on which `getMessages` throws, and one on which `getChatInfo` throws although
the count grew. -/
theorem change_detector_monotone_witness :
    (js "general", sampleEntry) ∈ sampleState.loadedChats ∧
    (notified (checkNewMessages (countingEnv 2 (.ok none))
        (checkNewMessages (countingEnv 1 (.ok none)) sampleState).1).2 sampleEntry.chatId = true
      ↔ (List.replicate 1 (⟨js "hi", false, js "peer"⟩ : Msg)).length
          < (List.replicate 2 (⟨js "hi", false, js "peer"⟩ : Msg)).length) ∧
    notified (checkNewMessages deadEnv sampleState).2 sampleEntry.chatId = false ∧
    notified (checkNewMessages (countingEnv 2 (.error "busy")) sampleState).2
      sampleEntry.chatId = false :=
  ⟨by decide,
    (change_detector_monotone (countingEnv 1 (.ok none)) (countingEnv 2 (.ok none)) sampleState
      (js "general") sampleEntry _ _ none rfl rfl (by decide) rfl rfl rfl (by decide)).1,
    (change_detector_monotone (countingEnv 1 (.ok none)) (countingEnv 2 (.ok none)) sampleState
      (js "general") sampleEntry _ _ none rfl rfl (by decide) rfl rfl rfl (by decide)).2
      deadEnv sampleState (Or.inl ⟨"engine down", rfl⟩),
    (change_detector_monotone (countingEnv 1 (.ok none)) (countingEnv 2 (.ok none)) sampleState
      (js "general") sampleEntry _ _ none rfl rfl (by decide) rfl rfl rfl (by decide)).2
      (countingEnv 2 (.error "busy")) sampleState (Or.inr ⟨"busy", rfl⟩)⟩

/-! ## Registry: list, open, send, delete -/

theorem setAdd_nodup {κ : Type} [DecidableEq κ] (s : List κ) (k : κ) (h : s.Nodup) :
    (setAdd s k).Nodup := by
  unfold setAdd
  split_ifs with hk
  · exact h
  · exact List.nodup_append.mpr ⟨h, List.nodup_singleton k, by
      intro a ha hb
      rw [List.mem_singleton] at hb
      exact hk (hb ▸ ha)⟩

theorem foldl_setAdd_nodup {κ : Type} [DecidableEq κ] (xs : List κ) :
    ∀ acc : List κ, acc.Nodup → (xs.foldl setAdd acc).Nodup := by
  induction xs with
  | nil => intro acc h; exact h
  | cons x xs ih => intro acc h; exact ih _ (setAdd_nodup acc x h)

theorem setOf_nodup {κ : Type} [DecidableEq κ] (xs : List κ) : (setOf xs).Nodup :=
  foldl_setAdd_nodup xs [] List.nodup_nil

theorem chatList_names (st : State) :
    (chatList st).map (fun e => e.name) = setOf (st.savedChatNames ++ mapKeys st.loadedChats) := by
  simp [chatList, List.map_map, Function.comp_def]

/-- C3 (well-formed list). After any sequence of `chat:open`, `chat:create`,
`chat:join` and `chat:delete` calls, each answered by the engine in any way, the
array returned by `chat:list` has no two entries with the same name, and every
entry with `loaded = true` carries the handle that `loadedChats` records for its
name (so its `chatId` is not `null`). -/
theorem chat_list_well_formed (st : State) (cs : List (Env × Op)) :
    ((chatList (applyOps st cs)).map (fun e => e.name)).Nodup ∧
    ∀ e ∈ chatList (applyOps st cs), e.loaded = true →
      ∃ info, mapGet (applyOps st cs).loadedChats e.name = some info ∧
        e.chatId = some info.chatId := by
  constructor
  · rw [chatList_names]
    exact setOf_nodup _
  · intro e he hl
    simp only [chatList, List.mem_map] at he
    obtain ⟨name, _, rfl⟩ := he
    simp only at hl ⊢
    cases hget : mapGet (applyOps st cs).loadedChats name with
    | none => simp [hget] at hl
    | some info => exact ⟨info, rfl, by simp⟩

/-- C4 (open is idempotent). For a name already in `loadedChats`, two `chat:open`
calls in a row both succeed with the cached entry (same `chatId`, `userKey`,
`secretId`, `isInitiator`), neither makes an outside call, and the state, hence
`loadedChats`, `savedChatNames` and `messageCounts`, is unchanged. -/
theorem open_idempotent (env1 env2 : Env) (st : State) (name : JsString)
    (h : mapHas st.loadedChats name = true) :
    ∃ info, mapGet st.loadedChats name = some info ∧
      chatOpen env1 st name = ⟨st, .chat none info, []⟩ ∧
      chatOpen env2 (chatOpen env1 st name).st name = ⟨st, .chat none info, []⟩ ∧
      (chatOpen env1 st name).reply.success = true ∧
      (chatOpen env2 (chatOpen env1 st name).st name).calls = [] := by
  unfold mapHas at h
  cases hget : mapGet st.loadedChats name with
  | none => simp [hget] at h
  | some info =>
    have h1 : chatOpen env1 st name = ⟨st, .chat none info, []⟩ := by
      simp [chatOpen, hget]
    have h2 : chatOpen env2 st name = ⟨st, .chat none info, []⟩ := by
      simp [chatOpen, hget]
    refine ⟨info, rfl, h1, ?_, ?_, ?_⟩
    · rw [h1]; exact h2
    · rw [h1]; rfl
    · rw [h1]; simp only; rw [h2]

/-- Instance of `open_idempotent`: `general` is loaded in the sample state; the
engine is down on both calls. -/
theorem open_idempotent_witness :
    mapHas sampleState.loadedChats (js "general") = true ∧
    ∃ info, mapGet sampleState.loadedChats (js "general") = some info ∧
      chatOpen deadEnv sampleState (js "general") = ⟨sampleState, .chat none info, []⟩ ∧
      chatOpen deadEnv (chatOpen deadEnv sampleState (js "general")).st (js "general")
        = ⟨sampleState, .chat none info, []⟩ ∧
      (chatOpen deadEnv sampleState (js "general")).reply.success = true ∧
      (chatOpen deadEnv (chatOpen deadEnv sampleState (js "general")).st (js "general")).calls
        = [] :=
  ⟨by decide, open_idempotent deadEnv deadEnv sampleState (js "general") (by decide)⟩

/-- C6 (turn enforcement). With the addon loaded, `chat:send` makes exactly one
outside call, `addon.sendMessage(chatId, text)`, whatever the turn state: it
returns the engine's result object as it is (so the engine's
`{ success: false, error: 'Not your turn' }` reaches the caller), or a failure
carrying the message of the error the engine threw. In every case the state,
hence `messageCounts`, `loadedChats` and `savedChatNames`, is unchanged. -/
theorem send_forwards_to_engine (env : Env) (st : State) (chatId : Nat) (text : JsString)
    (h : st.addon = true) :
    (chatSend env st chatId text).calls = [.sendMessage chatId text] ∧
    (chatSend env st chatId text).st = st ∧
    (∀ r, env.sendMessage chatId text = .ok r → (chatSend env st chatId text).reply = .sent r) ∧
    (∀ e, env.sendMessage chatId text = .error e →
      (chatSend env st chatId text).reply = .fail e) := by
  unfold chatSend
  simp only [h, Bool.not_true, Bool.false_eq_true, if_false]
  cases env.sendMessage chatId text with
  | ok r => simp
  | error e => simp

/-- Instance of `send_forwards_to_engine`: the engine refuses with `Not your turn`. -/
theorem send_forwards_to_engine_witness :
    sampleState.addon = true ∧
    (chatSend { deadEnv with sendMessage := fun _ _ => .ok ⟨false, some "Not your turn"⟩ }
        sampleState 1 (js "hello")).reply = .sent ⟨false, some "Not your turn"⟩ ∧
    (chatSend { deadEnv with sendMessage := fun _ _ => .ok ⟨false, some "Not your turn"⟩ }
        sampleState 1 (js "hello")).st = sampleState :=
  ⟨rfl,
    (send_forwards_to_engine
      { deadEnv with sendMessage := fun _ _ => .ok ⟨false, some "Not your turn"⟩ }
      sampleState 1 (js "hello") rfl).2.2.1 _ rfl,
    (send_forwards_to_engine
      { deadEnv with sendMessage := fun _ _ => .ok ⟨false, some "Not your turn"⟩ }
      sampleState 1 (js "hello") rfl).2.1⟩

/-! ## Peer candidates -/

theorem scanLine_skip (p : Int) (acc : Scan) (raw : JsString)
    (h : trim raw = [] ∨ setHas acc.seen (trim raw) = true) : scanLine p acc raw = acc := by
  unfold scanLine
  simp only
  rw [if_pos h]

theorem scanLine_no_colon (p : Int) (acc : Scan) (raw : JsString)
    (h0 : trim raw ≠ []) (h1 : setHas acc.seen (trim raw) = false)
    (h2 : lastIndexOf 58 (trim raw) = none) :
    scanLine p acc raw = { acc with seen := setAdd acc.seen (trim raw) } := by
  unfold scanLine
  simp only
  rw [if_neg (by simp [h0, h1]), h2]

theorem scanLine_peer (p : Int) (acc : Scan) (raw : JsString) (i : Nat) (port : Int)
    (h0 : trim raw ≠ []) (h1 : setHas acc.seen (trim raw) = false)
    (h2 : lastIndexOf 58 (trim raw) = some i)
    (h3 : parseInt (sliceFrom (trim raw) (i + 1)) = some port) (h4 : port ≠ p) :
    scanLine p acc raw =
      ⟨setAdd acc.seen (trim raw), acc.peers ++ [⟨slice (trim raw) 0 i, port⟩]⟩ := by
  unfold scanLine
  simp only
  rw [if_neg (by simp [h0, h1]), h2]
  simp only
  rw [h3]
  simp only
  rw [if_pos h4]

/-- C5, the claim as stated fails. With own port 9000 the example registry yields
no candidate with host `[::1]` and port 9000: the own-port test looks at the port
alone, and every line of the example has port 9000. -/
theorem own_port_hides_ipv6_entry :
    (⟨js "[::1]", 9000⟩ : Candidate) ∉ peerCandidates 9000 sampleRegistry := by
  decide

/-- C5 (peer parsing example, as amended). For the registry lines
`10.0.0.1:9000`, `10.0.0.1:9000`, `bad-line`, `[::1]:9000`: with own sync port
9000 the candidate list is empty, every line being a duplicate, malformed, or on
the own port; with any other own port it is exactly `10.0.0.1` port 9000 followed
by `[::1]` port 9000, the duplicate and `bad-line` left out. -/
theorem peer_example (p : Int) (hp : p ≠ 9000) :
    peerCandidates 9000 sampleRegistry = [] ∧
    peerCandidates p sampleRegistry = [⟨js "10.0.0.1", 9000⟩, ⟨js "[::1]", 9000⟩] := by
  refine ⟨by decide, ?_⟩
  have hs : splitLines sampleRegistry =
      [js "10.0.0.1:9000", js "10.0.0.1:9000", js "bad-line", js "[::1]:9000"] := by decide
  have s1 := scanLine_peer p ⟨[], []⟩ (js "10.0.0.1:9000") 8 9000
    (by decide) (by decide) (by decide) (by decide) (Ne.symm hp)
  have s2 := scanLine_skip p ⟨[js "10.0.0.1:9000"], [⟨js "10.0.0.1", 9000⟩]⟩
    (js "10.0.0.1:9000") (Or.inr (by decide))
  have s3 := scanLine_no_colon p ⟨[js "10.0.0.1:9000"], [⟨js "10.0.0.1", 9000⟩]⟩
    (js "bad-line") (by decide) (by decide) (by decide)
  have s4 := scanLine_peer p
    ⟨[js "10.0.0.1:9000", js "bad-line"], [⟨js "10.0.0.1", 9000⟩]⟩ (js "[::1]:9000") 5 9000
    (by decide) (by decide) (by decide) (by decide) (Ne.symm hp)
  have e1 : (⟨setAdd [] (trim (js "10.0.0.1:9000")),
      ([] : List Candidate) ++ [⟨slice (trim (js "10.0.0.1:9000")) 0 8, 9000⟩]⟩ : Scan)
      = ⟨[js "10.0.0.1:9000"], [⟨js "10.0.0.1", 9000⟩]⟩ := by decide
  have e3 : ({ (⟨[js "10.0.0.1:9000"], [⟨js "10.0.0.1", 9000⟩]⟩ : Scan) with
      seen := setAdd [js "10.0.0.1:9000"] (trim (js "bad-line")) } : Scan)
      = ⟨[js "10.0.0.1:9000", js "bad-line"], [⟨js "10.0.0.1", 9000⟩]⟩ := by decide
  have e4 : (⟨setAdd [js "10.0.0.1:9000", js "bad-line"] (trim (js "[::1]:9000")),
      [(⟨js "10.0.0.1", 9000⟩ : Candidate)] ++ [⟨slice (trim (js "[::1]:9000")) 0 5, 9000⟩]⟩ : Scan)
      = ⟨[js "10.0.0.1:9000", js "bad-line", js "[::1]:9000"],
          [⟨js "10.0.0.1", 9000⟩, ⟨js "[::1]", 9000⟩]⟩ := by decide
  rw [e1] at s1
  rw [e3] at s3
  rw [e4] at s4
  simp only [peerCandidates, hs, List.foldl_cons, List.foldl_nil, s1, s2, s3, s4]

/-- Instance of `peer_example`: own port 9001. -/
theorem peer_example_witness :
    (9001 : Int) ≠ 9000 ∧
    peerCandidates 9000 sampleRegistry = [] ∧
    peerCandidates 9001 sampleRegistry = [⟨js "10.0.0.1", 9000⟩, ⟨js "[::1]", 9000⟩] :=
  ⟨by decide, peer_example 9001 (by decide)⟩

/-! ## Delete -/

theorem mapGet_mapDelete_same {κ ν : Type} [DecidableEq κ] (m : List (κ × ν)) (k : κ) :
    mapGet (mapDelete m k) k = none := by
  induction m with
  | nil => rfl
  | cons e m ih =>
    obtain ⟨k', v⟩ := e
    by_cases h : k' = k
    · simpa [mapDelete, h] using ih
    · have : mapDelete ((k', v) :: m) k = (k', v) :: mapDelete m k := by
        simp [mapDelete, h]
      rw [this]
      simp [mapGet, h, ih]

theorem setHas_setDelete {κ : Type} [DecidableEq κ] (s : List κ) (k : κ) :
    setHas (setDelete s k) k = false := by
  simp [setHas, setDelete]

/-- State written by `chat:delete` once `destroyChat` has not thrown. -/
theorem chatDelete_success (env : Env) (st : State) (name : JsString) (chatId : Option Nat)
    (h : (chatDelete env st name chatId).reply.success = true) :
    (chatDelete env st name chatId).st =
      { st with
        loadedChats := mapDelete st.loadedChats name
        messageCounts := deleteCount st.messageCounts chatId
        savedChatNames := setDelete st.savedChatNames name } := by
  unfold chatDelete at h ⊢
  cases ha : st.addon <;> cases chatId with
  | none =>
    simp only [ha] at h ⊢
    split_ifs at h ⊢ with hf
    · cases hu : env.unlink name <;> simp [hu, Reply.success] at h ⊢
    · rfl
  | some c =>
    simp only [ha] at h ⊢
    first
    | (cases hd : env.destroyChat c
       · simp [hd, Except.map, Reply.success] at h
       · simp only [hd, Except.map] at h ⊢
         split_ifs at h ⊢ with hf
         · cases hu : env.unlink name <;> simp [hu, Reply.success] at h ⊢
         · rfl)
    | (split_ifs at h ⊢ with hf
       · cases hu : env.unlink name <;> simp [hu, Reply.success] at h ⊢
       · rfl)

/-- C10, the claim as stated fails. `general` is loaded with handle 1 and counted
in `messageCounts`; `chat:delete('general', null)` succeeds and the entry of
handle 1 is still in `messageCounts`. -/
theorem delete_keeps_count_of_recorded_handle :
    mapGet sampleState.loadedChats (js "general") = some sampleEntry ∧
    sampleEntry.chatId = 1 ∧
    (chatDelete deadEnv sampleState (js "general") none).reply.success = true ∧
    mapHas (chatDelete deadEnv sampleState (js "general") none).st.messageCounts 1 = true := by
  decide

/-- C10 (delete postcondition, as amended). Whenever `chat:delete(name, chatId)`
returns success, afterwards `loadedChats` has no entry for `name`,
`savedChatNames` does not contain `name`, and `messageCounts` has no entry for
the `chatId` argument; so none for the handle recorded for `name` when that
handle is what the caller passed. -/
theorem delete_postcondition (env : Env) (st : State) (name : JsString) (chatId : Option Nat)
    (h : (chatDelete env st name chatId).reply.success = true) :
    mapHas (chatDelete env st name chatId).st.loadedChats name = false ∧
    setHas (chatDelete env st name chatId).st.savedChatNames name = false ∧
    (∀ c, chatId = some c →
      mapHas (chatDelete env st name chatId).st.messageCounts c = false) ∧
    (∀ info, mapGet st.loadedChats name = some info → chatId = some info.chatId →
      mapHas (chatDelete env st name chatId).st.messageCounts info.chatId = false) := by
  rw [chatDelete_success env st name chatId h]
  refine ⟨?_, ?_, ?_, ?_⟩
  · simp [mapHas, mapGet_mapDelete_same]
  · exact setHas_setDelete _ _
  · intro c hc
    subst hc
    simp [mapHas, deleteCount, mapGet_mapDelete_same]
  · intro info _ hc
    rw [hc]
    simp [mapHas, deleteCount, mapGet_mapDelete_same]

/-- Instance of `delete_postcondition`: deleting `general` with its handle 1. -/
theorem delete_postcondition_witness :
    (chatDelete { deadEnv with destroyChat := fun _ => .ok () } sampleState (js "general")
      (some 1)).reply.success = true ∧
    mapHas (chatDelete { deadEnv with destroyChat := fun _ => .ok () } sampleState
      (js "general") (some 1)).st.messageCounts 1 = false :=
  ⟨by decide,
    (delete_postcondition { deadEnv with destroyChat := fun _ => .ok () } sampleState
      (js "general") (some 1) (by decide)).2.2.1 1 rfl⟩

/-! ## Add-chat dialog: join and create -/

theorem recordChat_calls_head (env : Env) (st : State) (name : JsString) (result : ChatEntry)
    (b : Bool) (first : Call) : (recordChat env st name result b first).calls.head? = some first := by
  unfold recordChat
  cases env.saveChat result.chatId name with
  | error e => rfl
  | ok u =>
    cases env.addDHTChat result.secretId with
    | error e => rfl
    | ok u => rfl

theorem recordChat_loaded (env : Env) (st : State) (name : JsString) (result : ChatEntry)
    (b : Bool) (first : Call) :
    mapGet (recordChat env st name result b first).st.loadedChats name =
      some ⟨result.chatId, result.userKey, result.secretId, b⟩ := by
  unfold recordChat
  cases env.saveChat result.chatId name with
  | error e => exact mapGet_mapSet_same _ _ _
  | ok u =>
    cases env.addDHTChat result.secretId with
    | error e => exact mapGet_mapSet_same _ _ _
    | ok u => exact mapGet_mapSet_same _ _ _

theorem recordChat_reply (env : Env) (st : State) (name : JsString) (result : ChatEntry)
    (b : Bool) (first : Call) (n : Option JsString) (info : ChatEntry)
    (h : (recordChat env st name result b first).reply = .chat n info) :
    info = ⟨result.chatId, result.userKey, result.secretId, b⟩ := by
  unfold recordChat at h
  cases hs : env.saveChat result.chatId name with
  | error e => simp [hs] at h
  | ok u =>
    cases hd : env.addDHTChat result.secretId with
    | error e => simp [hs, hd] at h
    | ok u =>
      simp [hs, hd] at h
      exact h.2.symm

/-- C7, the claim as stated fails. A 64-unit code ending in a space is trimmed to
63 units and refused before any call; and for the code of 32 `a` and 32 `b`, an
engine whose `joinChat` returns keys of its own gets those keys recorded, not
the two halves of the code. -/
theorem invite_code_not_always_recorded :
    (List.replicate 63 97 ++ [32] : JsString).length = 64 ∧
    (submitJoin echoEnv sampleState [] (js "room") (List.replicate 63 97 ++ [32])).outcome
      = .hint "Invite code must be 64 characters." ∧
    (submitJoin echoEnv sampleState [] (js "room") (List.replicate 63 97 ++ [32])).calls = [] ∧
    sampleCode.length = 64 ∧
    (submitJoin rekeyEnv sampleState [] (js "room") sampleCode).outcome
      = .added ⟨js "room", true, some 2, some (js "K2"), some (js "S2"), some false⟩ ∧
    mapGet (submitJoin rekeyEnv sampleState [] (js "room") sampleCode).st.loadedChats (js "room")
      = some ⟨2, js "K2", js "S2", false⟩ ∧
    js "K2" ≠ slice sampleCode 0 32 := by
  decide

/-- C7 (invite round-trip, as amended). Let `X` be the invite-code field after
`trim`, 64 units long, with a non-empty chat name and the addon loaded. The join
flow calls the engine's `joinChat` with `userKey = X.slice(0, 32)` and
`secretId = X.slice(32)`, each exactly 32 units and together equal to `X`. After
a successful join the `userKey` and `secretId` recorded in `loadedChats` and in
the renderer's chat list are the ones the engine's `joinChat` returned; they are
the two halves of `X` whenever the engine returns the keys it was given. -/
theorem invite_round_trip (env : Env) (st : State) (chats : List RChat)
    (nameInput codeInput : JsString)
    (hname : trim nameInput ≠ []) (hlen : (trim codeInput).length = 64)
    (haddon : st.addon = true) :
    (slice (trim codeInput) 0 32).length = 32 ∧
    (sliceFrom (trim codeInput) 32).length = 32 ∧
    slice (trim codeInput) 0 32 ++ sliceFrom (trim codeInput) 32 = trim codeInput ∧
    (submitJoin env st chats nameInput codeInput).calls.head? =
      some (.joinChat (trim nameInput) (slice (trim codeInput) 0 32)
        (sliceFrom (trim codeInput) 32)) ∧
    ∀ chat, (submitJoin env st chats nameInput codeInput).outcome = .added chat →
      ∃ result,
        env.joinChat (trim nameInput) (slice (trim codeInput) 0 32)
          (sliceFrom (trim codeInput) 32) = .ok result ∧
        mapGet (submitJoin env st chats nameInput codeInput).st.loadedChats (trim nameInput)
          = some ⟨result.chatId, result.userKey, result.secretId, false⟩ ∧
        chat.userKey = some result.userKey ∧ chat.secretId = some result.secretId ∧
        (result.userKey = slice (trim codeInput) 0 32 →
          result.secretId = sliceFrom (trim codeInput) 32 →
          chat.userKey = some (slice (trim codeInput) 0 32) ∧
          chat.secretId = some (sliceFrom (trim codeInput) 32)) := by
  refine ⟨?_, ?_, ?_, ?_, ?_⟩
  · simp [slice, hlen]
  · simp [sliceFrom, hlen]
  · simp [slice, sliceFrom]
  · simp only [submitJoin, if_neg hname, hlen, ne_eq, not_true_eq_false, if_false, chatJoin,
      haddon, Bool.not_true, Bool.false_eq_true]
    cases env.joinChat (trim nameInput) (slice (trim codeInput) 0 32)
        (sliceFrom (trim codeInput) 32) with
    | error e => rfl
    | ok result => exact recordChat_calls_head _ _ _ _ _ _
  · intro chat hout
    simp only [submitJoin, if_neg hname, hlen, ne_eq, not_true_eq_false, if_false, chatJoin,
      haddon, Bool.not_true, Bool.false_eq_true] at hout ⊢
    cases hj : env.joinChat (trim nameInput) (slice (trim codeInput) 0 32)
        (sliceFrom (trim codeInput) 32) with
    | error e => simp [hj, readReply] at hout
    | ok result =>
      simp only [hj] at hout ⊢
      refine ⟨result, rfl, recordChat_loaded _ _ _ _ _ _, ?_⟩
      cases hr : (recordChat env st (trim nameInput) result false
          (.joinChat (trim nameInput) (slice (trim codeInput) 0 32)
            (sliceFrom (trim codeInput) 32))).reply with
      | chat n info =>
        have hinfo := recordChat_reply _ _ _ _ _ _ _ _ hr
        subst hinfo
        rw [hr] at hout
        simp only [readReply, Submit.added.injEq] at hout
        subst hout
        simp only [true_and, Option.some.injEq]
        exact fun h1 h2 => ⟨h1, h2⟩
      | done => rw [hr] at hout; simp [readReply] at hout
      | fail e => rw [hr] at hout; simp [readReply] at hout
      | sent r => rw [hr] at hout; simp [readReply] at hout

/-- Instance of `invite_round_trip`: the code of 32 `a` and 32 `b` joined through
an engine that hands the keys back. -/
theorem invite_round_trip_witness :
    trim (js "room") ≠ [] ∧ (trim sampleCode).length = 64 ∧
    (submitJoin echoEnv sampleState [] (js "room") sampleCode).calls.head? =
      some (.joinChat (trim (js "room")) (slice (trim sampleCode) 0 32)
        (sliceFrom (trim sampleCode) 32)) :=
  ⟨by decide, by decide,
    (invite_round_trip echoEnv sampleState [] (js "room") sampleCode (by decide) (by decide)
      rfl).2.2.2.1⟩

/-- C8, the claim as stated fails. The `chat:join` handler checks no length: given
a two-unit `userKey` and a two-unit `secretId` it calls the engine's `joinChat`
and, the engine agreeing, records the chat. And the dialog looks at the trimmed
field: a 65-unit input whose trimmed form has 64 units goes through to the engine. -/
theorem join_handler_does_not_validate :
    (js "ab" ++ js "cd").length ≠ 64 ∧
    (chatJoin echoEnv sampleState (js "room") (js "ab") (js "cd")).reply.success = true ∧
    (chatJoin echoEnv sampleState (js "room") (js "ab") (js "cd")).calls.head?
      = some (.joinChat (js "room") (js "ab") (js "cd")) ∧
    (sampleCode ++ [32]).length ≠ 64 ∧
    (submitJoin echoEnv sampleState [] (js "room") (sampleCode ++ [32])).calls.head?
      = some (.joinChat (js "room") (slice sampleCode 0 32) (sliceFrom sampleCode 32)) := by
  decide

/-- C8 (join validation, as amended). In the join branch of the add-chat dialog,
whenever the invite-code field, once trimmed, is not exactly 64 units long, the
click ends in a validation hint (`Enter a chat name.` for an empty name, else
`Invite code must be 64 characters.`), no outside call is made, so the engine's
`joinChat` is never called, and neither the main-process state nor the chat list
changes. -/
theorem join_validation (env : Env) (st : State) (chats : List RChat)
    (nameInput codeInput : JsString) (h : (trim codeInput).length ≠ 64) :
    ((submitJoin env st chats nameInput codeInput).outcome = .hint "Enter a chat name." ∨
      (submitJoin env st chats nameInput codeInput).outcome
        = .hint "Invite code must be 64 characters.") ∧
    (submitJoin env st chats nameInput codeInput).calls = [] ∧
    (submitJoin env st chats nameInput codeInput).st = st ∧
    (submitJoin env st chats nameInput codeInput).chats = chats := by
  unfold submitJoin
  simp only
  by_cases hn : trim nameInput = []
  · rw [if_pos hn]
    exact ⟨Or.inl rfl, rfl, rfl, rfl⟩
  · rw [if_neg hn, if_pos h]
    exact ⟨Or.inr rfl, rfl, rfl, rfl⟩

/-- Instance of `join_validation`: a four-unit code, against an engine that would
accept the join. -/
theorem join_validation_witness :
    (trim (js "abcd")).length ≠ 64 ∧
    (submitJoin echoEnv sampleState sampleChats (js "room") (js "abcd")).calls = [] ∧
    (submitJoin echoEnv sampleState sampleChats (js "room") (js "abcd")).st = sampleState :=
  ⟨by decide,
    (join_validation echoEnv sampleState sampleChats (js "room") (js "abcd") (by decide)).2.1,
    (join_validation echoEnv sampleState sampleChats (js "room") (js "abcd") (by decide)).2.2.1⟩

/-- C9, the code at the failing input. `general` is loaded with handle 1 and is
in the renderer's chat list. The create branch of the dialog refuses the name
before any call; the join branch has no such test: joining as `general` with a
valid code succeeds, and `loadedChats` now records handle 2 and the new keys for
`general` in place of handle 1. -/
theorem join_overwrites_loaded_chat :
    mapGet sampleState.loadedChats (js "general") = some ⟨1, js "K1", js "S1", true⟩ ∧
    (submitCreate rekeyEnv sampleState sampleChats (js "general")).outcome
      = .hint "A chat with that name already exists." ∧
    (submitCreate rekeyEnv sampleState sampleChats (js "general")).calls = [] ∧
    (submitJoin rekeyEnv sampleState sampleChats (js "general") sampleCode).outcome
      = .added ⟨js "general", true, some 2, some (js "K2"), some (js "S2"), some false⟩ ∧
    mapGet (submitJoin rekeyEnv sampleState sampleChats (js "general") sampleCode).st.loadedChats
      (js "general") = some ⟨2, js "K2", js "S2", false⟩ := by
  decide

/-! ## Delete twice, engine unavailable, failed create and join -/

theorem mapDelete_idem {κ ν : Type} [DecidableEq κ] (m : List (κ × ν)) (k : κ) :
    mapDelete (mapDelete m k) k = mapDelete m k := by
  simp [mapDelete, List.filter_filter]

theorem setDelete_idem {κ : Type} [DecidableEq κ] (s : List κ) (k : κ) :
    setDelete (setDelete s k) k = setDelete s k := by
  simp [setDelete, List.filter_filter]

theorem deleteCount_idem (m : List (Nat × Nat)) (c : Option Nat) :
    deleteCount (deleteCount m c) c = deleteCount m c := by
  cases c with
  | none => rfl
  | some c => exact mapDelete_idem m c

/-- State left by `chat:delete`, whatever it returns: untouched when `destroyChat`
threw, else with the three removals done. -/
theorem chatDelete_state (env : Env) (st : State) (name : JsString) (chatId : Option Nat) :
    (chatDelete env st name chatId).st = st ∨
    (chatDelete env st name chatId).st =
      { st with
        loadedChats := mapDelete st.loadedChats name
        messageCounts := deleteCount st.messageCounts chatId
        savedChatNames := setDelete st.savedChatNames name } := by
  unfold chatDelete
  cases ha : st.addon <;> cases chatId with
  | none =>
    simp only
    split_ifs with hf
    · cases hu : env.unlink name <;> simp
    · simp
  | some c =>
    simp only
    first
    | (cases hd : env.destroyChat c
       · simp [Except.map]
       · simp only [Except.map]
         split_ifs with hf
         · cases hu : env.unlink name <;> simp
         · simp)
    | (split_ifs with hf
       · cases hu : env.unlink name <;> simp
       · simp)


theorem chatDelete_without_engine (env : Env) (st : State) (name : JsString)
    (chatId : Option Nat) (h : st.addon = false ∨ chatId = none)
    (hf : env.fileExists name = false) :
    (chatDelete env st name chatId).reply = .done ∧ (chatDelete env st name chatId).calls = [] := by
  unfold chatDelete
  rcases h with h | h
  · cases chatId <;> simp [h, hf]
  · subst h
    cases st.addon <;> simp [hf]

theorem chatDelete_with_engine (env : Env) (st : State) (name : JsString) (c : Nat)
    (h : st.addon = true) :
    (chatDelete env st name (some c)).calls.head? = some (.destroyChat c) ∧
    (env.fileExists name = false →
      ((chatDelete env st name (some c)).reply.success = true ↔ env.destroyChat c = .ok ())) := by
  unfold chatDelete
  simp only [h]
  cases hd : env.destroyChat c with
  | error e => simp [Except.map, Reply.success]
  | ok u =>
    simp only [Except.map]
    constructor
    · split_ifs
      · cases env.unlink name <;> simp
      · simp
    · intro hf
      simp [hf, Reply.success]

/-- C11, the claim as stated fails. `general` is loaded with handle 1. The first
`chat:delete('general', 1)` succeeds; an identical second call goes to the
engine again (`destroyChat(1)`), and fails when the engine throws on the handle
it has already destroyed. -/
theorem second_delete_calls_engine :
    (chatDelete { deadEnv with destroyChat := fun _ => .ok () } sampleState (js "general")
      (some 1)).reply.success = true ∧
    (chatDelete { deadEnv with destroyChat := fun _ => .ok () }
      (chatDelete { deadEnv with destroyChat := fun _ => .ok () } sampleState (js "general")
        (some 1)).st (js "general") (some 1)).calls = [.destroyChat 1] ∧
    (chatDelete deadEnv
      (chatDelete { deadEnv with destroyChat := fun _ => .ok () } sampleState (js "general")
        (some 1)).st (js "general") (some 1)).reply = .fail "engine down" := by
  decide

/-- C11 (delete twice, as amended). If `chat:delete(name, chatId)` returns
success, an identical call right after it leaves the state, hence `loadedChats`,
`savedChatNames` and `messageCounts`, exactly as the first call left it,
whatever it returns. The chat file being gone: with `chatId` null or no addon
the second call makes no outside call and returns success; with the addon
loaded and a handle it calls `destroyChat` on that handle again, and returns
success exactly when that call does not throw. -/
theorem delete_twice (env1 env2 : Env) (st : State) (name : JsString) (chatId : Option Nat)
    (h : (chatDelete env1 st name chatId).reply.success = true) :
    (chatDelete env2 (chatDelete env1 st name chatId).st name chatId).st
      = (chatDelete env1 st name chatId).st ∧
    ((st.addon = false ∨ chatId = none) → env2.fileExists name = false →
      (chatDelete env2 (chatDelete env1 st name chatId).st name chatId).reply = .done ∧
      (chatDelete env2 (chatDelete env1 st name chatId).st name chatId).calls = []) ∧
    (∀ c, st.addon = true → chatId = some c →
      (chatDelete env2 (chatDelete env1 st name chatId).st name chatId).calls.head?
        = some (.destroyChat c) ∧
      (env2.fileExists name = false →
        ((chatDelete env2 (chatDelete env1 st name chatId).st name chatId).reply.success = true
          ↔ env2.destroyChat c = .ok ()))) := by
  have h1 := chatDelete_success env1 st name chatId h
  have ha : (chatDelete env1 st name chatId).st.addon = st.addon := by rw [h1]
  refine ⟨?_, ?_, ?_⟩
  · rcases chatDelete_state env2 (chatDelete env1 st name chatId).st name chatId with h2 | h2
    · exact h2
    · rw [h2, h1]
      simp [mapDelete_idem, setDelete_idem, deleteCount_idem]
  · intro hc hf
    exact chatDelete_without_engine env2 _ name chatId (by rw [ha]; exact hc) hf
  · intro c hadd hc
    subst hc
    exact chatDelete_with_engine env2 _ name c (by rw [ha]; exact hadd)

/-- Instance of `delete_twice`: `general` deleted twice with its handle 1, the
engine accepting both `destroyChat` calls. -/
theorem delete_twice_witness :
    (chatDelete { deadEnv with destroyChat := fun _ => .ok () } sampleState (js "general")
      (some 1)).reply.success = true ∧
    (chatDelete { deadEnv with destroyChat := fun _ => .ok () }
      (chatDelete { deadEnv with destroyChat := fun _ => .ok () } sampleState (js "general")
        (some 1)).st (js "general") (some 1)).st
      = (chatDelete { deadEnv with destroyChat := fun _ => .ok () } sampleState (js "general")
        (some 1)).st :=
  ⟨by decide,
    (delete_twice { deadEnv with destroyChat := fun _ => .ok () }
      { deadEnv with destroyChat := fun _ => .ok () } sampleState (js "general") (some 1)
      (by decide)).1⟩


/-- C12, the claim as stated fails. With no addon, `chat:delete` is not refused:
it skips the engine call, removes the chat file and returns success. -/
theorem delete_works_without_addon :
    initialState.addon = false ∧
    (chatDelete { deadEnv with fileExists := fun _ => true } initialState (js "general")
      (some 1)).reply.success = true ∧
    (chatDelete { deadEnv with fileExists := fun _ => true } initialState (js "general")
      (some 1)).calls = [.unlink (js "general")] := by
  decide

/-- C12 (engine unavailable, as amended). While the addon is not loaded (and so
no chat is loaded), `chat:open`, `chat:create`, `chat:join` and `chat:send`
return a failure, leave the state, hence `loadedChats`, `savedChatNames` and
`messageCounts`, as it is, and make no outside call, so no chat file is written
or removed. `chat:delete` is not among them: it makes no engine call, removes
`name` from `loadedChats` and `savedChatNames` and `chatId` from
`messageCounts`, and, if the chat file exists, removes it; it returns success
unless removing the file throws, and then a failure with that error. -/
theorem engine_unavailable (env : Env) (st : State) (name userKey secretId text : JsString)
    (chatId : Nat) (delId : Option Nat) (h : st.addon = false) (hl : st.loadedChats = []) :
    ((chatOpen env st name).reply.success = false ∧ (chatOpen env st name).st = st ∧
      (chatOpen env st name).calls = []) ∧
    chatCreate env st name = ⟨st, .fail "Addon not loaded", []⟩ ∧
    chatJoin env st name userKey secretId = ⟨st, .fail "Addon not loaded", []⟩ ∧
    chatSend env st chatId text = ⟨st, .fail "Addon not loaded", []⟩ ∧
    ((chatDelete env st name delId).st =
        { st with
          loadedChats := mapDelete st.loadedChats name
          messageCounts := deleteCount st.messageCounts delId
          savedChatNames := setDelete st.savedChatNames name } ∧
      (env.fileExists name = false →
        (chatDelete env st name delId).reply = .done ∧
        (chatDelete env st name delId).calls = []) ∧
      (env.fileExists name = true →
        (chatDelete env st name delId).calls = [.unlink name] ∧
        (env.unlink name = .ok () → (chatDelete env st name delId).reply = .done) ∧
        (∀ e, env.unlink name = .error e → (chatDelete env st name delId).reply = .fail e))) := by
  refine ⟨?_, ?_, ?_, ?_, ?_⟩
  · unfold chatOpen
    simp only [hl, mapGet, h]
    split_ifs with h1 h2
    · simp [Reply.success]
    · simp [Reply.success]
    · simp at h2
  · simp [chatCreate, h]
  · simp [chatJoin, h]
  · simp [chatSend, h]
  · unfold chatDelete
    simp only [h]
    cases delId <;>
    · cases hf : env.fileExists name
      · simp
      · cases hu : env.unlink name <;> simp

/-- Instance of `engine_unavailable`: the state in which the module starts, an
engine that would accept every call, and a chat file that cannot be removed. -/
theorem engine_unavailable_witness :
    initialState.addon = false ∧ initialState.loadedChats = [] ∧
    chatCreate echoEnv initialState (js "room") = ⟨initialState, .fail "Addon not loaded", []⟩ ∧
    chatJoin echoEnv initialState (js "room") (js "K") (js "S")
      = ⟨initialState, .fail "Addon not loaded", []⟩ ∧
    (chatDelete { echoEnv with fileExists := fun _ => true, unlink := fun _ => .error "busy" }
      initialState (js "room") none).reply = .fail "busy" :=
  ⟨rfl, rfl,
    (engine_unavailable echoEnv initialState (js "room") (js "K") (js "S") (js "hi") 1 none
      rfl rfl).2.1,
    (engine_unavailable echoEnv initialState (js "room") (js "K") (js "S") (js "hi") 1 none
      rfl rfl).2.2.1,
    ((engine_unavailable
        { echoEnv with fileExists := fun _ => true, unlink := fun _ => .error "busy" }
        initialState (js "room") (js "K") (js "S") (js "hi") 1 none rfl rfl).2.2.2.2.2.2 rfl).2.2
      "busy" rfl⟩

/-- C19, the code at the failing input. The engine creates the chat with handle 2
and then `saveChat` throws, so that no chat file is written: `chat:create`
returns a failure, and `room`, unknown before the call, is now in `loadedChats`
and in `savedChatNames` (the names of chat files on disk), with its handle in
`messageCounts`. The same with `chat:join` when `addDHTChat` throws. Nothing
undoes the three writes made before `saveChat` and `addDHTChat`. -/
theorem failed_create_leaves_chat_recorded :
    (chatCreate { deadEnv with createChat := fun _ => .ok ⟨2, js "K2", js "S2", true⟩ }
      sampleState (js "room")).reply = .fail "engine down" ∧
    mapGet (chatCreate { deadEnv with createChat := fun _ => .ok ⟨2, js "K2", js "S2", true⟩ }
      sampleState (js "room")).st.loadedChats (js "room") = some ⟨2, js "K2", js "S2", true⟩ ∧
    setHas (chatCreate { deadEnv with createChat := fun _ => .ok ⟨2, js "K2", js "S2", true⟩ }
      sampleState (js "room")).st.savedChatNames (js "room") = true ∧
    mapHas (chatCreate { deadEnv with createChat := fun _ => .ok ⟨2, js "K2", js "S2", true⟩ }
      sampleState (js "room")).st.messageCounts 2 = true ∧
    (chatCreate { deadEnv with createChat := fun _ => .ok ⟨2, js "K2", js "S2", true⟩ }
      sampleState (js "room")).calls = [.createChat (js "room"), .saveChat 2 (js "room")] ∧
    mapHas sampleState.loadedChats (js "room") = false ∧
    setHas sampleState.savedChatNames (js "room") = false ∧
    mapHas sampleState.messageCounts 2 = false ∧
    (chatJoin { rekeyEnv with addDHTChat := fun _ => .error "dht" } sampleState (js "room")
      (js "K") (js "S")).reply = .fail "dht" ∧
    mapHas (chatJoin { rekeyEnv with addDHTChat := fun _ => .error "dht" } sampleState
      (js "room") (js "K") (js "S")).st.messageCounts 2 = true := by
  decide

/-- The failures of `chat:create` and `chat:join` that do leave the state alone:
the addon is not loaded, or the engine's `createChat` or `joinChat` threw. -/
theorem failed_create_join_early (env : Env) (st : State) (name userKey secretId : JsString) :
    ((st.addon = false ∨ ∃ e, env.createChat name = .error e) →
      (chatCreate env st name).reply.success = false ∧ (chatCreate env st name).st = st) ∧
    ((st.addon = false ∨ ∃ e, env.joinChat name userKey secretId = .error e) →
      (chatJoin env st name userKey secretId).reply.success = false ∧
      (chatJoin env st name userKey secretId).st = st) := by
  constructor
  · intro h
    unfold chatCreate
    cases ha : st.addon with
    | false => simp [Reply.success]
    | true =>
      rcases h with h | ⟨e, he⟩
      · simp [ha] at h
      · simp [he, Reply.success]
  · intro h
    unfold chatJoin
    cases ha : st.addon with
    | false => simp [Reply.success]
    | true =>
      rcases h with h | ⟨e, he⟩
      · simp [ha] at h
      · simp [he, Reply.success]

/-- With the engine down `chat:create` fails and leaves the sample state alone. -/
theorem failed_create_early_instance :
    (∃ e, deadEnv.createChat (js "room") = .error e) ∧
    (chatCreate deadEnv sampleState (js "room")).reply.success = false ∧
    (chatCreate deadEnv sampleState (js "room")).st = sampleState :=
  ⟨⟨"engine down", rfl⟩,
    (failed_create_join_early deadEnv sampleState (js "room") (js "K") (js "S")).1
      (Or.inr ⟨"engine down", rfl⟩)⟩


/-! ## Sync timer: failures and order within a tick -/

theorem loopAddon_step (s : Loop) (e : Ev) (h : LoopAddon s) : LoopAddon (step s e) := by
  unfold LoopAddon at *
  cases e with
  | timer =>
    simp only [step]
    split_ifs with hg
    · exact h
    · intro _
      simp at hg
      simpa using hg.1
  | syncResolved i added env =>
    by_cases hi : s.ticks[i]? = some TickPhase.awaitSync
    · simp only [step, if_pos hi]
      intro hne
      have hs : s.ticks ≠ [] := by
        intro h0
        simp [h0] at hi
      have := h hs
      split_ifs
      · rw [checkNewMessages_addon]; exact this
      · exact this
    · simp only [step, if_neg hi]
      exact h
  | syncRejected i =>
    simp only [step]
    split_ifs with hi
    · intro _
      exact h (by intro h0; simp [h0] at hi)
    · exact h
  | probeSettled i e =>
    simp only [step]
    split
    · exact h
    · exact h
  | peersResolved i =>
    simp only [step]
    split_ifs with hi
    · split
      · intro _
        exact h (by intro h0; simp [h0] at hi)
      · exact h
    · exact h
  | peersRejected i =>
    simp only [step]
    split_ifs with hi
    · intro _
      exact h (by intro h0; simp [h0] at hi)
    · exact h

theorem loopAddon_run (evs : List Ev) : ∀ s : Loop, LoopAddon s → LoopAddon (run s evs) := by
  induction evs with
  | nil => intro s h; exact h
  | cons e es ih => intro s h; exact ih (step s e) (loopAddon_step s e h)

theorem getElem?_set_self_of_some {α : Type} (l : List α) (i : Nat) (a b : α)
    (h : l[i]? = some b) : (l.set i a)[i]? = some a := by
  have hi : i < l.length := by
    by_contra hc
    rw [List.getElem?_eq_none (by omega)] at h
    cases h
  simp [List.getElem?_set, hi]

/-- A callback run that ends while it is the only one going leaves the loop ready
for the next tick. -/
theorem absorbed_of_finish (s : Loop) (i : Nat) (p : TickPhase) (hp : p ≠ TickPhase.finished)
    (hi : s.ticks[i]? = some p) (hinv : LoopInv s) (hadd : s.st.addon = true) :
    Absorbed s
      { s with st := { s.st with syncInProgress := false }, ticks := s.ticks.set i .finished } i := by
  have hc := countP_set_of_getElem (fun q => q != TickPhase.finished) TickPhase.finished p
    s.ticks i hi
  have hp' : (p != TickPhase.finished) = true := by simpa using hp
  simp only [hp', if_true] at hc
  simp at hc
  have hrun : List.countP (fun q => q != TickPhase.finished)
      (s.ticks.set i TickPhase.finished) = 0 := by
    have := hinv.2
    simp only [running] at this
    omega
  have hout : List.count TickPhase.awaitSync (s.ticks.set i TickPhase.finished) = 0 := by
    have hle : List.count TickPhase.awaitSync (s.ticks.set i TickPhase.finished)
        ≤ List.countP (fun q => q != TickPhase.finished) (s.ticks.set i TickPhase.finished) := by
      unfold List.count
      apply List.countP_mono_left
      intro q _ hq
      simp at hq
      subst hq
      decide
    omega
  refine ⟨rfl, rfl, getElem?_set_self_of_some _ _ _ _ hi, hrun, ?_, ?_⟩
  · simp [step, hadd]
  · simp [step, hadd, outstanding, List.count_append, hout]

/-- C16 (sync failure is absorbed). Take the loop after any sequence of events
and a callback run `i` that has started its engine call. If the awaited
`syncWithPeers()` rejects, or the later `getLivePeers()` step does, the run
ends with nothing pushed to the renderer and nothing thrown (the step is
total), `syncInProgress` is false, no run is left going, and the next timer
firing announces `sync:start` and starts a new `syncWithPeers()` call. -/
theorem sync_failure_absorbed (st : State) (evs : List Ev) (i : Nat) :
    ((run (Loop.start st) evs).ticks[i]? = some TickPhase.awaitSync →
      Absorbed (run (Loop.start st) evs)
        (step (run (Loop.start st) evs) (Ev.syncRejected i)) i) ∧
    ((run (Loop.start st) evs).ticks[i]? = some TickPhase.awaitPeers →
      Absorbed (run (Loop.start st) evs)
        (step (run (Loop.start st) evs) (Ev.peersRejected i)) i) := by
  have hinv := loopInv_run evs (Loop.start st) (loopInv_start st)
  have hadd := loopAddon_run evs (Loop.start st) (by simp [LoopAddon, Loop.start])
  constructor
  · intro hi
    have ha : (run (Loop.start st) evs).st.addon = true :=
      hadd (by intro h0; simp [h0] at hi)
    simp only [step, if_pos hi]
    exact absorbed_of_finish _ i _ (by decide) hi hinv ha
  · intro hi
    have ha : (run (Loop.start st) evs).st.addon = true :=
      hadd (by intro h0; simp [h0] at hi)
    simp only [step, if_pos hi]
    exact absorbed_of_finish _ i _ (by decide) hi hinv ha

/-- Instance of `sync_failure_absorbed`: the first tick of the sample state, whose
engine call rejects. -/
theorem sync_failure_absorbed_witness :
    (run (Loop.start sampleState) [Ev.timer]).ticks[0]? = some TickPhase.awaitSync ∧
    Absorbed (run (Loop.start sampleState) [Ev.timer])
      (step (run (Loop.start sampleState) [Ev.timer]) (Ev.syncRejected 0)) 0 :=
  ⟨by decide, (sync_failure_absorbed sampleState [Ev.timer] 0).1 (by decide)⟩

theorem run_append (s : Loop) (xs ys : List Ev) : run s (xs ++ ys) = run (run s xs) ys := by
  simp [run, List.foldl_append]

theorem run_timers_skipped (k : Nat) (s : Loop) (h : s.st.syncInProgress = true) :
    run s (List.replicate k Ev.timer) = s := by
  induction k with
  | zero => rfl
  | succ k ih =>
    simp only [List.replicate_succ, run, List.foldl_cons]
    have : step s Ev.timer = s := by simp [step, h]
    rw [this]
    exact ih

theorem pushToRenderer_window (st st' : State) (p : Push) (h : st'.windowOpen = st.windowOpen) :
    pushToRenderer st' p = pushToRenderer st p := by
  simp [pushToRenderer, h]

theorem checkNewMessages_peer_fields (env : Env) (st : State) :
    (checkNewMessages env st).1.syncPort = st.syncPort ∧
    (checkNewMessages env st).1.peerLastSeen = st.peerLastSeen := by
  unfold checkNewMessages
  split <;> simp

theorem step_syncResolved (s : Loop) (i : Nat) (n : Int) (env : Env)
    (h : s.ticks[i]? = some TickPhase.awaitSync) :
    step s (Ev.syncResolved i n env) =
      { st := (if n > 0 then checkNewMessages env s.st else (s.st, [])).1
        ticks := s.ticks.set i TickPhase.awaitPeers
        rounds := mapSet s.rounds i
          ((startRound (if n > 0 then checkNewMessages env s.st else (s.st, [])).1.syncPort env).1,
            (startRound (if n > 0 then checkNewMessages env s.st
              else (s.st, [])).1.syncPort env).1.map (fun _ => Slot.pending))
        log := s.log ++ pushToRenderer s.st (Push.syncDone n)
          ++ (if n > 0 then checkNewMessages env s.st else (s.st, [])).2
          ++ (startRound (if n > 0 then checkNewMessages env s.st
              else (s.st, [])).1.syncPort env).2 } := by
  simp only [step, if_pos h]

theorem step_peersResolved (s : Loop) (i : Nat) (r : PeersResult)
    (h : s.ticks[i]? = some TickPhase.awaitPeers)
    (hr : (mapGet s.rounds i).bind (fun round => roundResult round.2) = some r) :
    step s (Ev.peersResolved i) =
      { s with
        st := { s.st with syncInProgress := false }
        ticks := s.ticks.set i TickPhase.finished
        log := s.log ++ pushToRenderer s.st (Push.peersUpdate r.count r.peers) } := by
  simp only [step, if_pos h, hr]

theorem step_probeSettled (s : Loop) (i : Nat) (e : Settle) (peers : List Candidate)
    (slots : List Slot) (h : mapGet s.rounds i = some (peers, slots)) :
    step s (Ev.probeSettled i e) =
      { s with
        st := { s.st with peerLastSeen := (settle peers ⟨s.st.peerLastSeen, slots⟩ e).lastSeen }
        rounds := mapSet s.rounds i (peers, (settle peers ⟨s.st.peerLastSeen, slots⟩ e).slots) } := by
  simp only [step, h]

/-- The probes of run `i` settling one after the other fold `settle` over the
round of run `i`; nothing is pushed or called and no run changes phase. -/
theorem run_probes (i : Nat) (peers : List Candidate) :
    ∀ (es : List Settle) (s : Loop) (slots : List Slot),
      mapGet s.rounds i = some (peers, slots) →
      (run s (es.map (Ev.probeSettled i))).st
        = { s.st with
            peerLastSeen := (es.foldl (settle peers) ⟨s.st.peerLastSeen, slots⟩).lastSeen } ∧
      (run s (es.map (Ev.probeSettled i))).ticks = s.ticks ∧
      (run s (es.map (Ev.probeSettled i))).log = s.log ∧
      mapGet (run s (es.map (Ev.probeSettled i))).rounds i
        = some (peers, (es.foldl (settle peers) ⟨s.st.peerLastSeen, slots⟩).slots) := by
  intro es
  induction es with
  | nil => intro s slots h; exact ⟨rfl, rfl, rfl, h⟩
  | cons e es ih =>
    intro s slots h
    have hs := step_probeSettled s i e peers slots h
    have hrun : run s ((e :: es).map (Ev.probeSettled i))
        = run (step s (Ev.probeSettled i e)) (es.map (Ev.probeSettled i)) := rfl
    have hget : mapGet (step s (Ev.probeSettled i e)).rounds i
        = some (peers, (settle peers ⟨s.st.peerLastSeen, slots⟩ e).slots) := by
      rw [hs]
      exact mapGet_mapSet_same _ _ _
    obtain ⟨i1, i2, i3, i4⟩ := ih (step s (Ev.probeSettled i e)) _ hget
    have hls : (step s (Ev.probeSettled i e)).st.peerLastSeen
        = (settle peers ⟨s.st.peerLastSeen, slots⟩ e).lastSeen := by rw [hs]
    rw [hls] at i1 i4
    rw [hrun, List.foldl_cons]
    refine ⟨?_, ?_, ?_, i4⟩
    · rw [i1, hs]
    · rw [i2, hs]
    · rw [i3, hs]

theorem foldl_settle_nil (es : List Settle) (acc : Round) :
    es.foldl (settle []) acc = acc := by
  induction es with
  | nil => rfl
  | cons e es ih =>
    rw [List.foldl_cons]
    have : settle [] acc e = acc := by simp [settle]
    rw [this, ih]

/-- Function `getLivePeers` in terms of its synchronous part `startRound`. -/
theorem getLivePeers_eq (st : State) (env : Env) (es : List Settle) :
    getLivePeers st (registryOf env) es =
      ({ st with
          peerLastSeen := (es.foldl (settle (startRound st.syncPort env).1)
            ⟨st.peerLastSeen, (startRound st.syncPort env).1.map (fun _ => Slot.pending)⟩).lastSeen },
        roundResult (es.foldl (settle (startRound st.syncPort env).1)
          ⟨st.peerLastSeen, (startRound st.syncPort env).1.map (fun _ => Slot.pending)⟩).slots) := by
  unfold getLivePeers registryOf startRound
  by_cases he : env.registryExists = true
  · rw [if_pos he, if_pos he]
    cases env.readRegistry with
    | ok content => rfl
    | error err =>
      simp only [List.map_nil, foldl_settle_nil]
      rfl
  · rw [if_neg he, if_neg he]
    simp only [List.map_nil, foldl_settle_nil]
    rfl

theorem roundResult_count (slots : List Slot) (r : PeersResult)
    (h : roundResult slots = some r) :
    r.count = (r.peers.filter (fun p => p.live)).length := by
  unfold roundResult at h
  split_ifs at h
  · cases h; rfl
  · cases h; rfl

theorem settle_length (peers : List Candidate) (acc : Round) (e : Settle) :
    (settle peers acc e).slots.length = acc.slots.length := by
  unfold settle
  split
  · split <;> simp
  · rfl

theorem settle_keeps (peers : List Candidate) (acc : Round) (e : Settle) (k : Nat) (sl : Slot)
    (h : acc.slots[k]? = some sl) (hp : sl ≠ Slot.pending) :
    (settle peers acc e).slots[k]? = some sl := by
  unfold settle
  split
  · rename_i p hpe hse
    have hne : e.index ≠ k := by
      intro heq
      rw [heq, h] at hse
      exact hp (Option.some.inj hse)
    split <;> simp only [List.getElem?_set_ne hne, h]
  · exact h

theorem settle_hits (peers : List Candidate) (acc : Round) (e : Settle)
    (hl : acc.slots.length = peers.length) (hk : e.index < peers.length) :
    ∃ sl, (settle peers acc e).slots[e.index]? = some sl ∧ sl ≠ Slot.pending := by
  have hk2 : e.index < acc.slots.length := by omega
  by_cases hpend : acc.slots[e.index]? = some Slot.pending
  · have hpe : peers[e.index]? = some (peers[e.index]) := List.getElem?_eq_getElem hk
    unfold settle
    rw [hpe, hpend]
    simp only
    split
    · simp [hk2]
    · simp [hk2]
    · simp [hk2]
  · have hsome : acc.slots[e.index]? = some (acc.slots[e.index]) := List.getElem?_eq_getElem hk2
    have hne : acc.slots[e.index] ≠ Slot.pending := by
      intro heq
      rw [heq] at hsome
      exact hpend hsome
    exact ⟨_, settle_keeps peers acc e _ _ hsome hne, hne⟩

/-- A probe that has settled leaves its slot filled for the rest of the round. -/
theorem fold_settle_fills (peers : List Candidate) (k : Nat) (hk : k < peers.length) :
    ∀ (es : List Settle) (acc : Round), acc.slots.length = peers.length →
      ((∃ sl, acc.slots[k]? = some sl ∧ sl ≠ Slot.pending) ∨ ∃ e ∈ es, e.index = k) →
      ∃ sl, (es.foldl (settle peers) acc).slots[k]? = some sl ∧ sl ≠ Slot.pending := by
  intro es
  induction es with
  | nil =>
    intro acc _ h
    rcases h with h | ⟨e, he, _⟩
    · exact h
    · simp at he
  | cons e es ih =>
    intro acc hl h
    rw [List.foldl_cons]
    apply ih _ (by rw [settle_length]; exact hl)
    rcases h with ⟨sl, h1, h2⟩ | ⟨e', he', hidx⟩
    · exact Or.inl ⟨sl, settle_keeps peers acc e k sl h1 h2, h2⟩
    · rcases List.mem_cons.1 he' with heq | hmem
      · subst heq
        subst hidx
        exact Or.inl (settle_hits peers acc e' hl hk)
      · exact Or.inr ⟨e', hmem, hidx⟩

theorem fold_settle_length (peers : List Candidate) :
    ∀ (es : List Settle) (acc : Round),
      (es.foldl (settle peers) acc).slots.length = acc.slots.length := by
  intro es
  induction es with
  | nil => intro acc; rfl
  | cons e es ih =>
    intro acc
    rw [List.foldl_cons, ih, settle_length]

/-- Once the probe of every candidate has settled, `getLivePeers` resolves. -/
theorem round_resolves (peers : List Candidate) (lastSeen : List (JsString × Nat))
    (es : List Settle) (h : ∀ k, k < peers.length → ∃ e ∈ es, e.index = k) :
    ∃ r, roundResult (es.foldl (settle peers)
      ⟨lastSeen, peers.map (fun _ => Slot.pending)⟩).slots = some r := by
  unfold roundResult
  split_ifs with hf hp
  · exact ⟨_, rfl⟩
  · exfalso
    obtain ⟨k, hk, hget⟩ := List.getElem_of_mem hp
    have hlen := fold_settle_length peers es ⟨lastSeen, peers.map (fun _ => Slot.pending)⟩
    simp only [List.length_map] at hlen
    have hk2 : k < peers.length := by omega
    obtain ⟨sl, h1, h2⟩ := fold_settle_fills peers k hk2 es
      ⟨lastSeen, peers.map (fun _ => Slot.pending)⟩ (by simp) (Or.inr (h k hk2))
    rw [List.getElem?_eq_getElem hk, hget] at h1
    exact h2 (Option.some.inj h1).symm
  · exact ⟨_, rfl⟩

/-- C17 (order within a tick). Take a timer firing that is not skipped (addon
loaded, flag clear), whose `syncWithPeers()` resolves with `n` and whose probes
settle as `es` lists them, any number of further timer firings falling in
between. Once every candidate's probe has settled, `getLivePeers()` resolves.
Whenever it resolves, with `r` say (the value the function gives for the
registry and these settlements), what the main process does is, in this order
and nothing else, `sync:start`, the engine call, `sync:done` with `n`, the
`checkNewMessages` pass if and only if `n > 0`, the peer-liveness refresh (test
for the registry, read it, one `net.connect` per candidate), then
`peers:update` with `r`, whatever `n` is; at the end `peerLastSeen` is what
`getLivePeers` leaves, the flag is clear, and the count sent is the number of
live records sent; with the window open the three announcements and
`peers:update` are literally in the log. While `getLivePeers()` has not
resolved, the run has done all but `peers:update` and the flag is still set. -/
theorem tick_sequence (s : Loop) (n : Int) (env : Env) (es : List Settle) (a b c : Nat)
    (ha : s.st.addon = true) (hf : s.st.syncInProgress = false) :
    ((∀ k, k < (startRound s.st.syncPort env).1.length → ∃ e ∈ es, e.index = k) →
      ∃ r, (getLivePeers s.st (registryOf env) es).2 = some r) ∧
    (run s ([Ev.timer] ++ List.replicate a Ev.timer
        ++ [Ev.syncResolved s.ticks.length n env])).ticks[s.ticks.length]?
      = some TickPhase.awaitPeers ∧
    (∀ r, (getLivePeers s.st (registryOf env) es).2 = some r →
      (run s (tickEvents s.ticks.length a b c n env es)).log
        = s.log ++ pushToRenderer s.st Push.syncStart ++ [Obs.call Call.syncWithPeers]
            ++ pushToRenderer s.st (Push.syncDone n)
            ++ (if n > 0 then (checkNewMessages env (step s Ev.timer).st).2 else [])
            ++ (startRound s.st.syncPort env).2
            ++ pushToRenderer s.st (Push.peersUpdate r.count r.peers) ∧
      (run s (tickEvents s.ticks.length a b c n env es)).st.peerLastSeen
        = (getLivePeers s.st (registryOf env) es).1.peerLastSeen ∧
      (run s (tickEvents s.ticks.length a b c n env es)).st.syncInProgress = false ∧
      r.count = (r.peers.filter (fun p => p.live)).length ∧
      (s.st.windowOpen = true →
        (run s (tickEvents s.ticks.length a b c n env es)).log
          = s.log ++ [Obs.push Push.syncStart, Obs.call Call.syncWithPeers,
                Obs.push (Push.syncDone n)]
              ++ (if n > 0 then (checkNewMessages env (step s Ev.timer).st).2 else [])
              ++ (startRound s.st.syncPort env).2
              ++ [Obs.push (Push.peersUpdate r.count r.peers)])) ∧
    ((getLivePeers s.st (registryOf env) es).2 = none →
      (run s (tickEvents s.ticks.length a b c n env es)).log
        = s.log ++ pushToRenderer s.st Push.syncStart ++ [Obs.call Call.syncWithPeers]
            ++ pushToRenderer s.st (Push.syncDone n)
            ++ (if n > 0 then (checkNewMessages env (step s Ev.timer).st).2 else [])
            ++ (startRound s.st.syncPort env).2 ∧
      (run s (tickEvents s.ticks.length a b c n env es)).st.syncInProgress = true) := by
  -- the firing starts run number `s.ticks.length`
  have h1 : step s Ev.timer =
      { s with
        st := { s.st with syncInProgress := true }
        ticks := s.ticks ++ [TickPhase.awaitSync]
        log := s.log ++ pushToRenderer s.st Push.syncStart ++ [Obs.call Call.syncWithPeers] } := by
    simp [step, ha, hf]
  have e1 : run s ([Ev.timer] ++ List.replicate a Ev.timer) = step s Ev.timer := by
    rw [run_append]
    exact run_timers_skipped a _ (by show (step s Ev.timer).st.syncInProgress = true; rw [h1])
  have hflag : (if n > 0 then checkNewMessages env (step s Ev.timer).st
      else ((step s Ev.timer).st, [])).1.syncInProgress = true := by
    split_ifs
    · rw [checkNewMessages_syncInProgress, h1]
    · rw [h1]
  have hwin : (if n > 0 then checkNewMessages env (step s Ev.timer).st
      else ((step s Ev.timer).st, [])).1.windowOpen = s.st.windowOpen := by
    split_ifs
    · rw [(checkNewMessages_frame env _).2.1, h1]
    · rw [h1]
  have hport : (if n > 0 then checkNewMessages env (step s Ev.timer).st
      else ((step s Ev.timer).st, [])).1.syncPort = s.st.syncPort := by
    split_ifs
    · rw [(checkNewMessages_peer_fields env _).1, h1]
    · rw [h1]
  have hseen : (if n > 0 then checkNewMessages env (step s Ev.timer).st
      else ((step s Ev.timer).st, [])).1.peerLastSeen = s.st.peerLastSeen := by
    split_ifs
    · rw [(checkNewMessages_peer_fields env _).2, h1]
    · rw [h1]
  have hlog : (if n > 0 then checkNewMessages env (step s Ev.timer).st
      else ((step s Ev.timer).st, [])).2 =
      (if n > 0 then (checkNewMessages env (step s Ev.timer).st).2 else []) := by
    split_ifs <;> rfl
  have hget : (step s Ev.timer).ticks[s.ticks.length]? = some TickPhase.awaitSync := by
    rw [h1]; simp
  have h2 := step_syncResolved (step s Ev.timer) s.ticks.length n env hget
  rw [hport] at h2
  have e2 : run s ([Ev.timer] ++ List.replicate a Ev.timer
      ++ [Ev.syncResolved s.ticks.length n env])
      = step (step s Ev.timer) (Ev.syncResolved s.ticks.length n env) := by
    rw [run_append, e1]; rfl
  -- the state after the engine call resolved
  generalize hs2 : step (step s Ev.timer) (Ev.syncResolved s.ticks.length n env) = s2 at h2 e2
  have hget2 : s2.ticks[s.ticks.length]? = some TickPhase.awaitPeers := by
    rw [h2]
    exact getElem?_set_self_of_some _ _ _ _ hget
  have hround : mapGet s2.rounds s.ticks.length
      = some ((startRound s.st.syncPort env).1,
          (startRound s.st.syncPort env).1.map (fun _ => Slot.pending)) := by
    rw [h2]
    exact mapGet_mapSet_same _ _ _
  have hs2flag : s2.st.syncInProgress = true := by rw [h2]; exact hflag
  have hs2seen : s2.st.peerLastSeen = s.st.peerLastSeen := by rw [h2]; exact hseen
  have hs2win : s2.st.windowOpen = s.st.windowOpen := by rw [h2]; exact hwin
  have hs2log : s2.log = s.log ++ pushToRenderer s.st Push.syncStart ++ [Obs.call Call.syncWithPeers]
      ++ pushToRenderer s.st (Push.syncDone n)
      ++ (if n > 0 then (checkNewMessages env (step s Ev.timer).st).2 else [])
      ++ (startRound s.st.syncPort env).2 := by
    rw [h2]
    simp only
    rw [hlog, pushToRenderer_window s.st (step s Ev.timer).st _ (by rw [h1])]
    rw [h1]
  -- the probes settle
  obtain ⟨p1, p2, p3, p4⟩ := run_probes s.ticks.length _ es s2 _ hround
  rw [hs2seen] at p1 p4
  have hg := getLivePeers_eq s.st env es
  generalize hs3 : run s2 (es.map (Ev.probeSettled s.ticks.length)) = s3 at p1 p2 p3 p4
  have hs3flag : s3.st.syncInProgress = true := by rw [p1]; exact hs2flag
  have e3 : run s (tickEvents s.ticks.length a b c n env es)
      = step s3 (Ev.peersResolved s.ticks.length) := by
    unfold tickEvents
    rw [run_append, run_append, run_append, run_append, e2,
      run_timers_skipped b _ hs2flag, hs3, run_timers_skipped c _ hs3flag]
    rfl
  refine ⟨?_, by rw [e2]; exact hget2, ?_, ?_⟩
  · intro hall
    rw [hg]
    exact round_resolves _ _ es hall
  · intro r hr
    rw [hg] at hr
    have hres : (mapGet s3.rounds s.ticks.length).bind (fun round => roundResult round.2)
        = some r := by
      rw [p4]
      exact hr
    have h4 := step_peersResolved s3 s.ticks.length r (by rw [p2]; exact hget2) hres
    have h4log : (step s3 (Ev.peersResolved s.ticks.length)).log
        = s.log ++ pushToRenderer s.st Push.syncStart ++ [Obs.call Call.syncWithPeers]
            ++ pushToRenderer s.st (Push.syncDone n)
            ++ (if n > 0 then (checkNewMessages env (step s Ev.timer).st).2 else [])
            ++ (startRound s.st.syncPort env).2
            ++ pushToRenderer s.st (Push.peersUpdate r.count r.peers) := by
      rw [h4]
      simp only
      rw [p3, hs2log, pushToRenderer_window s.st s3.st _ (by rw [p1]; exact hs2win)]
    refine ⟨by rw [e3]; exact h4log, ?_, ?_, roundResult_count _ r hr, ?_⟩
    · rw [e3, h4, hg]
      simp only
      rw [p1]
    · rw [e3, h4]
    · intro hw
      rw [e3, h4log]
      simp [pushToRenderer, hw]
  · intro hnone
    rw [hg] at hnone
    have hres : (mapGet s3.rounds s.ticks.length).bind (fun round => roundResult round.2)
        = none := by
      rw [p4]
      exact hnone
    have h4 : step s3 (Ev.peersResolved s.ticks.length) = s3 := by
      simp only [step, hres]
      split_ifs <;> rfl
    rw [e3, h4]
    exact ⟨by rw [p3, hs2log], hs3flag⟩

/-- Instance of `tick_sequence`: the sample state listening on port 9001, a sync
that added one message, an engine holding one message in `general`, a registry
of two peers of which the second answers at time 20. -/
theorem tick_sequence_witness :
    (Loop.start { sampleState with syncPort := 9001 }).st.addon = true ∧
    (Loop.start { sampleState with syncPort := 9001 }).st.syncInProgress = false ∧
    (getLivePeers { sampleState with syncPort := 9001 } (registryOf registryEnv)
        [⟨1, .live, 20⟩, ⟨0, .dead, 30⟩]).2
      = some ⟨1, [⟨js "h", 1, false, none⟩, ⟨js "k", 2, true, some 20⟩]⟩ ∧
    (run (Loop.start { sampleState with syncPort := 9001 })
        (tickEvents 0 1 0 1 1 registryEnv [⟨1, .live, 20⟩, ⟨0, .dead, 30⟩])).log
      = [Obs.push Push.syncStart, Obs.call Call.syncWithPeers, Obs.push (Push.syncDone 1),
          Obs.call (Call.getMessages 1), Obs.call (Call.getChatInfo 1),
          Obs.push (Push.messagesUpdate 1 (js "general") [⟨js "hi", false, js "peer"⟩] (some 0)),
          Obs.call Call.registryExists, Obs.call Call.readRegistry,
          Obs.call (Call.connect (js "h") 1), Obs.call (Call.connect (js "k") 2),
          Obs.push (Push.peersUpdate 1
            [⟨js "h", 1, false, none⟩, ⟨js "k", 2, true, some 20⟩])] ∧
    (run (Loop.start { sampleState with syncPort := 9001 })
        (tickEvents 0 1 0 1 1 registryEnv [⟨1, .live, 20⟩, ⟨0, .dead, 30⟩])).st.peerLastSeen
      = [(js "k:2", 20)] :=
  ⟨rfl, rfl, by decide, by
    have h := ((tick_sequence (Loop.start { sampleState with syncPort := 9001 }) 1 registryEnv
      [⟨1, .live, 20⟩, ⟨0, .dead, 30⟩] 1 0 1 rfl rfl).2.2.1
      ⟨1, [⟨js "h", 1, false, none⟩, ⟨js "k", 2, true, some 20⟩]⟩ (by decide)).1
    exact h.trans (by decide), by decide⟩


/-! ## Peer candidates: one per distinct line, malformed lines -/

theorem scanLine_eq (p : Int) (acc : Scan) (raw : JsString) :
    scanLine p acc raw =
      if trim raw = [] ∨ setHas acc.seen (trim raw) = true then acc
      else ⟨acc.seen ++ [trim raw], acc.peers ++ (parseLine p (trim raw)).toList⟩ := by
  unfold scanLine
  simp only
  split_ifs with h
  · rfl
  · have hmem : trim raw ∉ acc.seen := by
      intro hm
      exact h (Or.inr (by simp [setHas, hm]))
    have hadd : setAdd acc.seen (trim raw) = acc.seen ++ [trim raw] := by
      simp [setAdd, hmem]
    unfold parseLine
    cases lastIndexOf 58 (trim raw) with
    | none => simp [hadd]
    | some i =>
      simp only
      cases parseInt (sliceFrom (trim raw) (i + 1)) with
      | none => simp [hadd]
      | some port =>
        simp only
        split_ifs <;> simp [hadd]

theorem fold_scanLine (p : Int) (lines : List JsString) :
    ∀ acc : Scan, acc.peers = acc.seen.filterMap (parseLine p) →
      (lines.foldl (scanLine p) acc).peers
          = (lines.foldl (scanLine p) acc).seen.filterMap (parseLine p) ∧
      (lines.foldl (scanLine p) acc).seen
          = ((lines.map trim).filter (fun l => decide (l ≠ []))).foldl setAdd acc.seen := by
  induction lines with
  | nil => intro acc h; exact ⟨h, rfl⟩
  | cons raw rest ih =>
    intro acc h
    simp only [List.foldl_cons, List.map_cons]
    rw [scanLine_eq]
    by_cases hb : trim raw = []
    · simp only [hb, true_or, if_true]
      have := ih acc h
      simpa [List.filter_cons] using this
    · by_cases hs : setHas acc.seen (trim raw) = true
      · simp only [hs, or_true, if_true]
        have hm : trim raw ∈ acc.seen := by simpa [setHas] using hs
        have := ih acc h
        simpa [List.filter_cons, hb, setAdd, hm] using this
      · have hm : trim raw ∉ acc.seen := by simpa [setHas] using hs
        simp only [hb, hs, or_self, if_false]
        have := ih ⟨acc.seen ++ [trim raw], acc.peers ++ (parseLine p (trim raw)).toList⟩ (by
          simp only [List.filterMap_append, h]
          cases hpl : parseLine p (trim raw) <;> simp [List.filterMap_cons, hpl])
        simpa [List.filter_cons, hb, setAdd, hm] using this

theorem peerCandidates_eq (p : Int) (content : JsString) :
    peerCandidates p content = (distinctLines content).filterMap (parseLine p) := by
  have := fold_scanLine p (splitLines content) ⟨[], []⟩ rfl
  unfold peerCandidates distinctLines setOf
  rw [this.1, this.2]


/-- C14, the claim as stated fails. The lines `h:1` and `h:01` differ as text, so
neither is dropped as a duplicate, and both parse to host `h`, port 1: the
candidate list holds the same pair twice and the round probes it twice. -/
theorem same_peer_listed_twice :
    peerCandidates 9000 (js "h:1\nh:01") = [⟨js "h", 1⟩, ⟨js "h", 1⟩] ∧
    ¬ (peerCandidates 9000 (js "h:1\nh:01")).Nodup := by
  decide

/-- C14 (one probe per distinct line, as amended). For every registry file and own
port, the candidate list of `getLivePeers` has at most one entry per distinct
trimmed non-blank line: it is the list of those lines, each taken once in order
of first occurrence, with every line that parses to a peer replaced by that peer
and the others dropped. So a round makes at most one connection attempt per
distinct line. -/
theorem one_candidate_per_distinct_line (p : Int) (content : JsString) :
    peerCandidates p content = (distinctLines content).filterMap (parseLine p) ∧
    (distinctLines content).Nodup ∧
    (peerCandidates p content).length ≤ (distinctLines content).length := by
  refine ⟨peerCandidates_eq p content, setOf_nodup _, ?_⟩
  rw [peerCandidates_eq]
  exact List.length_filterMap_le _ _

theorem parseInt_eq_none_iff (s : JsString) : parseInt s = none ↔ numericStart s = false := by
  have hd : ∀ t : JsString,
      (List.takeWhile isDigit
        (match t with
          | 45 :: r => (true, r)
          | 43 :: r => (false, r)
          | _ => (false, t) : Bool × JsString).2 = []) ↔
      (match t with
        | 45 :: r => decide (r.takeWhile isDigit ≠ [])
        | 43 :: r => decide (r.takeWhile isDigit ≠ [])
        | t => decide (t.takeWhile isDigit ≠ [])) = false := by
    intro t
    split <;> simp
  refine Iff.trans ?_ (hd (List.dropWhile isJsSpace s))
  unfold parseInt
  simp only
  split_ifs with h
  · exact ⟨fun _ => h, fun _ => rfl⟩
  · exact ⟨fun hc => (by cases hc), fun ha => absurd ha h⟩

theorem parseLine_port_ne (p : Int) (l : JsString) (c : Candidate)
    (h : parseLine p l = some c) : c.port ≠ p := by
  unfold parseLine at h
  cases hl : lastIndexOf 58 l with
  | none => simp [hl] at h
  | some i =>
    cases hp : parseInt (sliceFrom l (i + 1)) with
    | none => simp [hl, hp] at h
    | some port =>
      simp only [hl, hp] at h
      split_ifs at h with hne
      · cases h
        exact hne

/-- C15, the claim as stated fails. In the line `h:90x` the text after the last
colon has trailing non-digit characters; `parseInt` reads its numeric prefix and
the line yields the candidate `h`, port 90. -/
theorem trailing_garbage_port_accepted :
    peerCandidates 9000 (js "h:90x") = [⟨js "h", 90⟩] := by
  decide

/-- C15 (malformed lines, as amended). A registry line that, once trimmed, has no
colon, or whose text after the last colon does not begin with a number (after
white space and at most one sign no decimal digit follows: an empty or
non-numeric port), adds no candidate. No candidate ever has a port equal to the
own sync port. -/
theorem malformed_lines_skipped (p : Int) (content : JsString) (acc : Scan) (raw : JsString) :
    ((lastIndexOf 58 (trim raw) = none ∨
        ∃ i, lastIndexOf 58 (trim raw) = some i ∧
          numericStart (sliceFrom (trim raw) (i + 1)) = false) →
      (scanLine p acc raw).peers = acc.peers) ∧
    (∀ c ∈ peerCandidates p content, c.port ≠ p) := by
  constructor
  · intro h
    have hnone : parseLine p (trim raw) = none := by
      unfold parseLine
      rcases h with h | ⟨i, hi, hn⟩
      · simp [h]
      · simp [hi, (parseInt_eq_none_iff _).mpr hn]
    rw [scanLine_eq]
    split_ifs
    · rfl
    · simp [hnone]
  · intro c hc
    rw [peerCandidates_eq, List.mem_filterMap] at hc
    obtain ⟨l, _, hl⟩ := hc
    exact parseLine_port_ne p l c hl

/-- Instance of `malformed_lines_skipped`: the line `h:` with its empty port. -/
theorem malformed_lines_skipped_witness :
    (∃ i, lastIndexOf 58 (trim (js "h:")) = some i ∧
      numericStart (sliceFrom (trim (js "h:")) (i + 1)) = false) ∧
    (scanLine 9000 ⟨[], []⟩ (js "h:")).peers = [] :=
  ⟨⟨1, by decide, by decide⟩,
    (malformed_lines_skipped 9000 [] ⟨[], []⟩ (js "h:")).1
      (Or.inr ⟨1, by decide, by decide⟩)⟩


/-! ## Peer liveness: last-known-good timestamps -/

theorem settle_not_live (peers : List Candidate) (acc : Round) (e : Settle)
    (h : e.result ≠ ProbeResult.live) : (settle peers acc e).lastSeen = acc.lastSeen := by
  unfold settle
  split
  · cases hr : e.result with
    | live => exact absurd hr h
    | dead => rfl
    | threw => rfl
  · rfl

theorem settle_other_key (peers : List Candidate) (acc : Round) (e : Settle) (key : JsString)
    (h : ∀ p, peers[e.index]? = some p → e.result = ProbeResult.live → peerKey p ≠ key) :
    mapGet (settle peers acc e).lastSeen key = mapGet acc.lastSeen key := by
  unfold settle
  split
  · rename_i p hp _
    cases hr : e.result with
    | live => exact mapGet_mapSet_ne _ _ _ _ (h p hp hr)
    | dead => rfl
    | threw => rfl
  · rfl

theorem fold_settle_other_key (peers : List Candidate) (key : JsString) (es : List Settle)
    (h : ∀ e ∈ es, ∀ p, peers[e.index]? = some p → e.result = ProbeResult.live →
      peerKey p ≠ key) :
    ∀ acc : Round, mapGet (es.foldl (settle peers) acc).lastSeen key = mapGet acc.lastSeen key := by
  induction es with
  | nil => intro acc; rfl
  | cons e es ih =>
    intro acc
    rw [List.foldl_cons, ih (fun e' he' => h e' (List.mem_cons_of_mem _ he'))]
    exact settle_other_key peers acc e key (h e (List.mem_cons_self _ _))

theorem peerKey_ne_of_nodup (peers : List Candidate) (hk : (peers.map peerKey).Nodup)
    (i j : Nat) (p q : Candidate) (hi : peers[i]? = some p) (hj : peers[j]? = some q)
    (hij : i ≠ j) : peerKey p ≠ peerKey q := by
  intro heq
  have hi' : (peers.map peerKey)[i]? = some (peerKey p) := by simp [hi]
  have hj' : (peers.map peerKey)[j]? = some (peerKey q) := by simp [hj]
  have hil : i < (peers.map peerKey).length := by
    by_contra hc
    rw [List.getElem?_eq_none (by omega)] at hi'
    cases hi'
  have hjl : j < (peers.map peerKey).length := by
    by_contra hc
    rw [List.getElem?_eq_none (by omega)] at hj'
    cases hj'
  rcases Nat.lt_or_gt_of_ne hij with hlt | hgt
  · exact (List.nodup_iff_getElem?_ne_getElem?.mp hk i j hlt hjl) (by rw [hi', hj', heq])
  · exact (List.nodup_iff_getElem?_ne_getElem?.mp hk j i hgt hil) (by rw [hi', hj', heq])

theorem recordsCurrent_settle (peers : List Candidate) (hk : (peers.map peerKey).Nodup)
    (acc : Round) (e : Settle) (h : RecordsCurrent peers acc) :
    RecordsCurrent peers (settle peers acc e) := by
  unfold RecordsCurrent at h ⊢
  unfold settle
  split
  · rename_i p hp hs
    have hlen : e.index < acc.slots.length := by
      by_contra hc
      rw [List.getElem?_eq_none (by omega)] at hs
      cases hs
    cases hr : e.result with
    | threw =>
      intro i r hir
      simp only [List.getElem?_set] at hir ⊢
      split_ifs at hir with h1
      · cases hir
      · exact h i r hir
    | dead =>
      intro i r hir
      simp only [List.getElem?_set] at hir ⊢
      split_ifs at hir with h1
      · subst h1
        simp only [Option.some.injEq, Slot.done.injEq] at hir
        subst hir
        exact ⟨p, hp, rfl, rfl, rfl⟩
      · exact h i r hir
    | live =>
      intro i r hir
      simp only [List.getElem?_set] at hir ⊢
      split_ifs at hir with h1
      · subst h1
        simp only [Option.some.injEq, Slot.done.injEq] at hir
        subst hir
        exact ⟨p, hp, rfl, rfl, rfl⟩
      · obtain ⟨q, hq, h2, h3, h4⟩ := h i r hir
        refine ⟨q, hq, h2, h3, ?_⟩
        rw [h4]
        rw [mapGet_mapSet_ne _ _ _ _ (peerKey_ne_of_nodup peers hk e.index i p q hp hq h1)]
  · exact h

theorem recordsCurrent_fold (peers : List Candidate) (hk : (peers.map peerKey).Nodup)
    (es : List Settle) :
    ∀ acc : Round, RecordsCurrent peers acc → RecordsCurrent peers (es.foldl (settle peers) acc) := by
  induction es with
  | nil => intro acc h; exact h
  | cons e es ih => intro acc h; exact ih _ (recordsCurrent_settle peers hk acc e h)

theorem recordsCurrent_start (lastSeen : List (JsString × Nat)) (peers : List Candidate) :
    RecordsCurrent peers (Round.start lastSeen peers) := by
  unfold RecordsCurrent
  intro i r hir
  simp only [Round.start, List.getElem?_map] at hir
  cases hp : peers[i]? <;> simp [hp] at hir


theorem mem_doneRecords (slots : List Slot) (r : PeerRecord) (h : r ∈ doneRecords slots) :
    ∃ i : Nat, slots[i]? = some (Slot.done r) := by
  unfold doneRecords at h
  rw [List.mem_filterMap] at h
  obtain ⟨s, hs, hr⟩ := h
  cases s with
  | pending => simp at hr
  | failed => simp at hr
  | done r' =>
    simp only [Option.some.injEq] at hr
    subst hr
    exact List.mem_iff_getElem?.mp hs

/-- C13, the claim as stated fails. The registry lines `h:1` and `h:01` give two
candidates with the same key `h:1`. The probe of the first fails at time 10, the
probe of the second succeeds at time 20: the first returned record has
`lastSeen` null, while the value stored for its key after the round is 20. -/
theorem record_older_than_stored_value :
    (getLivePeers sampleState (some (js "h:1\nh:01")) [⟨0, .dead, 10⟩, ⟨1, .live, 20⟩]).2
      = some ⟨1, [⟨js "h", 1, false, none⟩, ⟨js "h", 1, true, some 20⟩]⟩ ∧
    mapGet (getLivePeers sampleState (some (js "h:1\nh:01"))
      [⟨0, .dead, 10⟩, ⟨1, .live, 20⟩]).1.peerLastSeen (js "h:1") = some 20 := by
  decide

/-- C13 (last-known-good timestamps, as amended). In every round of
`getLivePeers`: a probe that does not succeed leaves `peerLastSeen` as it is; a
key for which no probe of the round succeeded keeps its entry, so the map is
written only for keys whose probe succeeded; and when no two candidates of the
round share a key, every returned record's `lastSeen` is the value stored for
its key after the round, read through `|| null` (null when nothing, or 0, is
stored). -/
theorem last_seen_kept (st : State) (content : JsString) (es : List Settle) :
    (∀ (acc : Round) (e : Settle), e.result ≠ ProbeResult.live →
      (settle (peerCandidates st.syncPort content) acc e).lastSeen = acc.lastSeen) ∧
    (∀ key : JsString,
      (∀ e ∈ es, ∀ p, (peerCandidates st.syncPort content)[e.index]? = some p →
        e.result = ProbeResult.live → peerKey p ≠ key) →
      mapGet (getLivePeers st (some content) es).1.peerLastSeen key
        = mapGet st.peerLastSeen key) ∧
    (((peerCandidates st.syncPort content).map peerKey).Nodup →
      ∀ result, (getLivePeers st (some content) es).2 = some result →
        ∀ r ∈ result.peers,
          r.lastSeen = orNull (mapGet (getLivePeers st (some content) es).1.peerLastSeen
            (peerKey ⟨r.host, r.port⟩))) := by
  refine ⟨fun acc e h => settle_not_live _ acc e h, ?_, ?_⟩
  · intro key h
    simp only [getLivePeers]
    exact fold_settle_other_key _ key es h _
  · intro hk result hres r hr
    simp only [getLivePeers] at hres ⊢
    have hcur := recordsCurrent_fold _ hk es _
      (recordsCurrent_start st.peerLastSeen (peerCandidates st.syncPort content))
    unfold roundResult at hres
    split_ifs at hres with h1 h2
    · cases hres
      simp at hr
    · cases hres
      obtain ⟨i, hi⟩ := mem_doneRecords _ r hr
      obtain ⟨p, _, hh, hp, hl⟩ := hcur i r hi
      rw [hl]
      cases p
      simp only at hh hp
      rw [hh, hp]

/-- Instance of `last_seen_kept`: two peers with different keys, the first probe
failing, the second succeeding at time 20. -/
theorem last_seen_kept_witness :
    ((peerCandidates sampleState.syncPort (js "h:1\nk:2")).map peerKey).Nodup ∧
    (getLivePeers sampleState (some (js "h:1\nk:2")) [⟨1, .live, 20⟩, ⟨0, .dead, 30⟩]).2
      = some ⟨1, [⟨js "h", 1, false, none⟩, ⟨js "k", 2, true, some 20⟩]⟩ ∧
    (∀ r ∈ [(⟨js "h", 1, false, none⟩ : PeerRecord), ⟨js "k", 2, true, some 20⟩],
      r.lastSeen = orNull (mapGet (getLivePeers sampleState (some (js "h:1\nk:2"))
        [⟨1, .live, 20⟩, ⟨0, .dead, 30⟩]).1.peerLastSeen (peerKey ⟨r.host, r.port⟩))) :=
  ⟨by decide, by decide,
    (last_seen_kept sampleState (js "h:1\nk:2") [⟨1, .live, 20⟩, ⟨0, .dead, 30⟩]).2.2
      (by decide) ⟨1, [⟨js "h", 1, false, none⟩, ⟨js "k", 2, true, some 20⟩]⟩ (by decide)⟩


/-! ## Renderer: may-send predicate and unread counts -/

/-- C18 (may-send predicate). With a chat open, for every turn code the engine
reported for it, a missing code and the default 0 included, `updateTurnBar`
leaves the send button enabled exactly when the code is not 2 (`WAITING`); the
same holds right after a `messages:update` for the open chat, whose code is the
one just reported. The function reads the code and writes only the turn bar and
the button: the codes kept in `chatState` are not changed by it. -/
theorem may_send_iff_not_waiting (s : RState) (c : Nat) (name : JsString) (msgs : List Msg)
    (code : Option Nat) (h : s.currentChatId = some c) :
    ((updateTurnBar s).btnSendDisabled = false ↔ (mapGet s.chatState c).join ≠ some 2) ∧
    ((onMessagesUpdate s c name msgs code).btnSendDisabled = false ↔ code ≠ some 2) ∧
    (updateTurnBar s).chatState = s.chatState ∧
    ((onMessagesUpdate s c name msgs (reportedCode none)).btnSendDisabled = false) := by
  have hut : ∀ s' : RState, s'.currentChatId = some c →
      ((updateTurnBar s').btnSendDisabled = false ↔ (mapGet s'.chatState c).join ≠ some 2) ∧
      (updateTurnBar s').chatState = s'.chatState := by
    intro s' h'
    unfold updateTurnBar
    simp only [h']
    split_ifs with hc
    · exact ⟨⟨fun hf => (by cases hf), fun hn => absurd hc hn⟩, rfl⟩
    · exact ⟨⟨fun _ => hc, fun _ => rfl⟩, rfl⟩
  have hmu : ∀ code' : Option Nat,
      ((onMessagesUpdate s c name msgs code').btnSendDisabled = false ↔ code' ≠ some 2) := by
    intro code'
    unfold onMessagesUpdate
    simp only [h, if_true]
    refine Iff.trans (hut _ rfl).1 ?_
    simp only [mapGet_mapSet_same, Option.join, Option.bind, id]
  refine ⟨(hut s h).1, hmu code, (hut s h).2, ?_⟩
  rw [hmu]
  simp [reportedCode]

/-- Instance of `may_send_iff_not_waiting`: chat 1 open, the engine reporting 2. -/
theorem may_send_iff_not_waiting_witness :
    ({ sampleRenderer with currentChatId := some 1 } : RState).currentChatId = some 1 ∧
    ((onMessagesUpdate { sampleRenderer with currentChatId := some 1 } 1 (js "general") []
        (some 2)).btnSendDisabled = false ↔ (some 2 : Option Nat) ≠ some 2) :=
  ⟨rfl,
    (may_send_iff_not_waiting { sampleRenderer with currentChatId := some 1 } 1 (js "general")
      [] (some 2) rfl).2.1⟩

/-- The unread count of a chat that is not open never grows: the listener stores
the new list first and measures the old length on it. -/
theorem unread_unchanged (s : RState) (c : Nat) (name : JsString) (msgs : List Msg)
    (code : Option Nat) (h : s.currentChatId ≠ some c) :
    mapGet (onMessagesUpdate s c name msgs code).unreadCounts name
      = some ((mapGet s.unreadCounts name).getD 0) := by
  unfold onMessagesUpdate
  simp only [h, if_false]
  simp [mapGet_mapSet_same]

/-- C20, the code at the failing input. No chat is open, `general` (handle 1) has
no message stored and no unread count. A `messages:update` bringing two messages
for it leaves its unread count at 0, not at 2: `state.messages[chatId]` is
overwritten before `prev` is read from it. -/
theorem unread_count_stays_zero :
    sampleRenderer.currentChatId = none ∧
    mapGet sampleRenderer.messages 1 = some [] ∧
    mapGet (onMessagesUpdate sampleRenderer 1 (js "general")
      [⟨js "hi", false, js "peer"⟩, ⟨js "there", false, js "peer"⟩] (some 0)).unreadCounts
      (js "general") = some 0 := by
  decide

end DComms
